import Mathlib

/-!
Shallow embedding of the multi-provider event-hunting subsystem of the
dredge incident-response toolkit (src/dredge/{aws_ir,github_ir,gcp_ir}/hunt.py).

Remote calls are modelled by scripts: a driver-level script is a finite list,
one element per page-fetch, and each element is a function from the backoff
attempt index to the outcome of that attempt.  Time does not pass in the
model; sleeps are recorded as ghost observables (a list of rational delays).
Python float arithmetic on delays is modelled over ℚ; Python string
truthiness (None and the empty string are falsy) is modelled explicitly.
-/

namespace Dredge

/-- Python truthiness of an optional string: None and the empty string are falsy. -/
def pyTruthyOpt : Option String → Bool
  | none => false
  | some s => s ≠ ""

/-- Python `a or b` on optional strings: yields b when a is falsy. -/
def pyOrOpt (a b : Option String) : Option String :=
  if pyTruthyOpt a then a else b

/-- Python `a or b` where b is a plain (always-truthy) string. -/
def pyOrStr (a : Option String) (b : String) : String :=
  match a with
  | some s => if s ≠ "" then s else b
  | none => b

/-- Outcome trace of one backoff-executor invocation: the returned value or
the propagated error, the total number of call attempts made, and the list
of sleep durations (seconds, in order). -/
structure BackoffOut (α : Type) where
  result : Except String α
  attempts : Nat
  sleeps : List ℚ
  deriving Repr

/-! ## Cloud-infra provider (AWS CloudTrail, src/dredge/aws_ir/hunt.py) -/

/-- The fixed throttling error-code set _THROTTLE_ERROR_CODES. -/
def awsThrottleCodes : List String :=
  ["Throttling", "ThrottlingException", "RequestLimitExceeded", "TooManyRequestsException"]

/-- One CloudTrail LookupAttribute entry (AttributeKey/AttributeValue pair). -/
structure LookupAttribute where
  attributeKey : String
  attributeValue : String
  deriving Repr, DecidableEq

/-- A raw CloudTrail event record as returned by LookupEvents.  Each
`Option String` field models dict.get of the corresponding key.
The nested CloudTrailEvent JSON string is kept verbatim in
cloudTrailEvent; ctSourceIp models the result of json.loads on it
followed by .get of sourceIPAddress: none = the parse raises,
some v = the parse succeeds and sourceIPAddress is v.
sourceIPAddressTop models the optional top-level SourceIPAddress key:
none = key absent, some v = key present with value v. -/
structure AwsRawEvent where
  eventId : Option String := none
  eventName : Option String := none
  eventTime : Option String := none
  username : Option String := none
  eventSource : Option String := none
  awsRegion : Option String := none
  readOnly : Option String := none
  accessKeyId : Option String := none
  sourceIPAddressTop : Option (Option String) := none
  cloudTrailEvent : Option String := none
  ctSourceIp : Option (Option String) := none
  resources : List String := []
  deriving Repr, DecidableEq

/-- The normalized CloudTrail event dict produced by AwsIRHunt._normalize_event. -/
structure AwsNormEvent where
  event_id : Option String
  event_name : Option String
  event_time : Option String
  username : Option String
  event_source : Option String
  aws_region : Option String
  read_only : Option String
  access_key_id : Option String
  source_ip_address : Option String
  resources : List String
  raw_cloudtrail_event : Option String
  deriving Repr, DecidableEq

/-- AwsIRHunt._normalize_event: derive the flat dict, extracting the source IP
from the nested payload when it parses, preferring a top-level key. -/
def awsNormalizeEvent (e : AwsRawEvent) : AwsNormEvent :=
  let sipNested : Option String :=
    if pyTruthyOpt e.cloudTrailEvent then
      match e.ctSourceIp with
      | some v => v
      | none => none
    else none
  let sip : Option String :=
    match e.sourceIPAddressTop with
    | some v => v
    | none => sipNested
  { event_id := e.eventId
    event_name := e.eventName
    event_time := e.eventTime
    username := e.username
    event_source := e.eventSource
    aws_region := e.awsRegion
    read_only := e.readOnly
    access_key_id := e.accessKeyId
    source_ip_address := sip
    resources := e.resources
    raw_cloudtrail_event := e.cloudTrailEvent }

/-- AwsIRHunt._build_lookup_attributes: choose the single primary
LookupAttribute with precedence AccessKeyId > Username > EventName. -/
def awsBuildLookupAttributes (userName accessKeyId eventName : Option String) :
    List LookupAttribute :=
  match accessKeyId with
  | some a =>
    if a ≠ "" then [⟨"AccessKeyId", a⟩] else
      awsBuildLookupAttributes2 userName eventName
  | none => awsBuildLookupAttributes2 userName eventName
where
  /-- Fallback: Username then EventName. -/
  awsBuildLookupAttributes2 (userName eventName : Option String) : List LookupAttribute :=
    match userName with
    | some u =>
      if u ≠ "" then [⟨"Username", u⟩] else
        match eventName with
        | some v => if v ≠ "" then [⟨"EventName", v⟩] else []
        | none => []
    | none =>
      match eventName with
      | some v => if v ≠ "" then [⟨"EventName", v⟩] else []
      | none => []

/-- Response of one successful CloudTrail lookup_events call. -/
structure AwsResp where
  events : List AwsRawEvent
  nextToken : Option String
  deriving Repr, DecidableEq

/-- Outcome of one raw CloudTrail call attempt: success, or a
botocore ClientError with the given error code. -/
inductive AwsOutcome where
  | ok (resp : AwsResp)
  | clientError (code : String)
  deriving Repr, DecidableEq

/-- AwsIRHunt._call_with_backoff, with retriesLeft = throttle_max_retries - attempt:
on a ClientError with a throttling code sleep base*2^attempt and retry while
retries remain; otherwise re-raise. -/
def awsBackoffAux (call : Nat → AwsOutcome) (base : ℚ) :
    Nat → Nat → BackoffOut AwsResp
  | retriesLeft, attempt =>
    match call attempt with
    | .ok r => ⟨.ok r, attempt + 1, []⟩
    | .clientError c =>
      if c ∈ awsThrottleCodes then
        match retriesLeft with
        | 0 => ⟨.error ("ClientError " ++ c), attempt + 1, []⟩
        | rl + 1 =>
          let rest := awsBackoffAux call base rl (attempt + 1)
          ⟨rest.result, rest.attempts, base * 2 ^ attempt :: rest.sleeps⟩
      else ⟨.error ("ClientError " ++ c), attempt + 1, []⟩

/-- AwsIRHunt._call_with_backoff entry point: attempt starts at 0. -/
def awsBackoff (call : Nat → AwsOutcome) (base : ℚ) (maxRetries : Nat) :
    BackoffOut AwsResp :=
  awsBackoffAux call base maxRetries 0

/-- The parameter dict built for one lookup_events call (times modelled as
rational epoch seconds, MaxResults as min(page_size, 50)). -/
structure AwsParams where
  startTime : ℚ
  endTime : ℚ
  maxResults : Int
  lookupAttributes : List LookupAttribute
  nextToken : Option String
  deriving Repr, DecidableEq

/-- The statistics block placed in details["statistics"] by lookup_events. -/
structure AwsStats where
  total_events_returned : Nat
  api_calls : Nat
  lookup_attributes : List LookupAttribute
  time_range_start : ℚ
  time_range_end : ℚ
  deriving Repr, DecidableEq

/-- The OperationResult of one lookup_events run, plus ghost observables:
the params of every driver-level call, the number of driver-level calls,
the total number of raw call attempts inside the backoff executor, and
whether the run aborted on a call failure. -/
structure AwsRunOut where
  events : List AwsNormEvent
  success : Bool
  errors : List String
  stats : AwsStats
  paramsLog : List AwsParams
  callsMade : Nat
  totalAttempts : Nat
  aborted : Bool
  deriving Repr, DecidableEq

/-- Caller-facing arguments of AwsIRHunt.lookup_events (times as rational
epoch seconds, now = datetime.now at entry). -/
structure AwsCfg where
  userName : Option String := none
  accessKeyId : Option String := none
  eventName : Option String := none
  sourceIp : Option String := none
  startTime : Option ℚ := none
  endTime : Option ℚ := none
  maxEvents : Int := 500
  pageSize : Int := 50
  maxRetries : Nat := 5
  baseDelay : ℚ := 1/2
  now : ℚ := 0

/-- The client-side filter of the lookup_events page loop: skip the
normalized event when event_name was supplied but is not the primary
lookup attribute and the event's name differs, or when source_ip was
supplied and the event's source_ip_address differs. -/
def awsClientSkip (eventName sourceIp : Option String)
    (attrs : List LookupAttribute) (n : AwsNormEvent) : Bool :=
  (match eventName, attrs with
   | some s, a :: _ =>
     s ≠ "" && a.attributeKey ≠ "EventName" && n.event_name ≠ some s
   | _, _ => false)
  ||
  (match sourceIp with
   | some ip => ip ≠ "" && n.source_ip_address ≠ some ip
   | none => false)

/-- The inner for-loop of lookup_events over one page of raw events:
stop at the cap, apply client-side filters, append normalized events. -/
def awsIngest (maxEvents : Int) (eventName sourceIp : Option String)
    (attrs : List LookupAttribute) :
    List AwsNormEvent → List AwsRawEvent → List AwsNormEvent
  | acc, [] => acc
  | acc, r :: rs =>
    if (acc.length : Int) ≥ maxEvents then acc
    else
      let n := awsNormalizeEvent r
      if awsClientSkip eventName sourceIp attrs n then
        awsIngest maxEvents eventName sourceIp attrs acc rs
      else
        awsIngest maxEvents eventName sourceIp attrs (acc ++ [n]) rs

/-- Package the run output (statistics mirror the code's final assignment). -/
def awsMkOut (eS eE : ℚ) (attrs : List LookupAttribute)
    (acc : List AwsNormEvent) (success : Bool) (errors : List String)
    (api calls att : Nat) (plog : List AwsParams) (aborted : Bool) : AwsRunOut :=
  { events := acc
    success := success
    errors := errors
    stats :=
      { total_events_returned := acc.length
        api_calls := api
        lookup_attributes := attrs
        time_range_start := eS
        time_range_end := eE }
    paramsLog := plog
    callsMade := calls
    totalAttempts := att
    aborted := aborted }

/-- The main pagination loop of AwsIRHunt.lookup_events.  The script lists
the attempt-indexed outcomes of each driver-level call; when the script is
exhausted the run is truncated (returned as accumulated, success intact) —
claims are stated over all finite scripts. -/
def awsLookupAux (c : AwsCfg) (attrs : List LookupAttribute) (eS eE : ℚ) :
    List (Nat → AwsOutcome) → Option String → List AwsNormEvent →
    Nat → Nat → Nat → List AwsParams → AwsRunOut
  | script, tok, acc, calls, api, att, plog =>
    if (acc.length : Int) ≥ c.maxEvents then
      awsMkOut eS eE attrs acc true [] api calls att plog false
    else
      match script with
      | [] => awsMkOut eS eE attrs acc true [] api calls att plog false
      | callFn :: rest =>
        let p : AwsParams :=
          ⟨eS, eE, min c.pageSize 50, attrs,
            if pyTruthyOpt tok then tok else none⟩
        let b := awsBackoff callFn c.baseDelay c.maxRetries
        match b.result with
        | .error msg =>
          awsMkOut eS eE attrs acc false
            ["Failed to lookup CloudTrail events: " ++ msg]
            api (calls + 1) (att + b.attempts) (plog ++ [p]) true
        | .ok resp =>
          let acc2 := awsIngest c.maxEvents c.eventName c.sourceIp attrs acc resp.events
          if pyTruthyOpt resp.nextToken then
            awsLookupAux c attrs eS eE rest resp.nextToken acc2
              (calls + 1) (api + 1) (att + b.attempts) (plog ++ [p])
          else
            awsMkOut eS eE attrs acc2 true [] (api + 1) (calls + 1)
              (att + b.attempts) (plog ++ [p]) false

/-- AwsIRHunt.lookup_events: default the time window to the last 24 hours,
choose the primary lookup attribute, run the pagination loop. -/
def awsLookupEvents (c : AwsCfg) (script : List (Nat → AwsOutcome)) : AwsRunOut :=
  let eS := match c.startTime with
    | none => c.now - 86400
    | some t => t
  let eE := match c.endTime with
    | none => c.now
    | some t => t
  let attrs := awsBuildLookupAttributes c.userName c.accessKeyId c.eventName
  awsLookupAux c attrs eS eE script none [] 0 0 0 []

/-! ## Source-control provider (GitHub audit log, src/dredge/github_ir/hunt.py) -/

/-- A raw GitHub audit-log event (dict with optional string fields;
timestampAt models the "@timestamp" key). -/
structure GhRawEvent where
  action : Option String := none
  actor : Option String := none
  actorIp : Option String := none
  repo : Option String := none
  org : Option String := none
  timestampAt : Option String := none
  createdAt : Option String := none
  deriving Repr, DecidableEq

/-- The normalized GitHub event dict: derived fields plus the whole raw
record under "raw". -/
structure GhNormEvent where
  action : Option String
  actor : Option String
  actor_ip : Option String
  repository : Option String
  org : Option String
  created_at : Option String
  raw : GhRawEvent
  deriving Repr, DecidableEq

/-- GitHubIRHunt._normalize_event. -/
def ghNormalizeEvent (ev : GhRawEvent) : GhNormEvent :=
  { action := ev.action
    actor := ev.actor
    actor_ip := ev.actorIp
    repository := ev.repo
    org := ev.org
    created_at := pyOrOpt ev.timestampAt ev.createdAt
    raw := ev }

/-- A Python datetime as the GitHub phrase builder sees it: its calendar
date (date().isoformat()) and its time-of-day part; the full isoformat is
dateStr ++ "T" ++ timeStr.  Python datetimes are always truthy. -/
structure GhDatetime where
  dateStr : String
  timeStr : String
  deriving Repr, DecidableEq

/-- The contribution of one optional filter field to a term list:
one term prefix ++ value when the field is truthy, nothing otherwise. -/
def optTerm (pre : String) (o : Option String) : List String :=
  match o with
  | some v => if v ≠ "" then [pre ++ v] else []
  | none => []

/-- As optTerm, with a closing suffix after the value. -/
def optClause (pre post : String) (o : Option String) : List String :=
  match o with
  | some v => if v ≠ "" then [pre ++ v ++ post] else []
  | none => []

/-- The parts list built by GitHubIRHunt._build_phrase: actor:, action:,
repo:, actor_ip: terms, then a created: term truncated to calendar-day
granularity. -/
def ghBuildPhraseParts (actor action repo sourceIp : Option String)
    (startTime endTime : Option GhDatetime) : List String :=
  optTerm "actor:" actor ++
  optTerm "action:" action ++
  optTerm "repo:" repo ++
  optTerm "actor_ip:" sourceIp ++
  (match startTime, endTime with
   | some s, some e => ["created:" ++ s.dateStr ++ ".." ++ e.dateStr]
   | some s, none => ["created:>=" ++ s.dateStr]
   | none, some e => ["created:<=" ++ e.dateStr]
   | none, none => [])

/-- GitHubIRHunt._build_phrase: the parts joined with single spaces. -/
def ghBuildPhrase (actor action repo sourceIp : Option String)
    (startTime endTime : Option GhDatetime) : String :=
  String.intercalate " "
    (ghBuildPhraseParts actor action repo sourceIp startTime endTime)

/-- One HTTP response from the audit-log endpoint: status code, the two
rate-limit headers (reset as none = header absent, some none = present but
not an integer, some (some r) = parses to epoch r), the JSON body (none =
not a list), and the error text used when the call is raised. -/
structure GhResp where
  status : Nat
  remaining : Option String := none
  reset : Option (Option Int) := none
  body : Option (List GhRawEvent) := none
  errText : String := ""
  deriving Repr, DecidableEq

/-- The sleep chosen for one GitHub retry: when the remaining-quota header
is exactly "0" and a parseable reset header is present, wait until the
reset epoch but no less than the exponential delay; otherwise the
exponential delay. -/
def ghRetrySleep (resp : GhResp) (delay : ℚ) (now : ℤ) : ℚ :=
  if resp.remaining = some "0" then
    match resp.reset with
    | some (some r) => max ((r - now : ℤ) : ℚ) delay
    | some none => delay
    | none => delay
  else delay

/-- GitHubIRHunt._call_with_backoff, retriesLeft = throttle_max_retries - attempt:
2xx returns, 403/429 with retries left sleeps and retries, anything else
(a non-rate-limit status, or 403/429 with retries exhausted) falls through
to the RuntimeError raise carrying the status and body text.  nowAt gives
the wall clock at each attempt. -/
def ghBackoffAux (call : Nat → GhResp) (base : ℚ) (nowAt : Nat → ℤ)
    (retriesLeft attempt : Nat) : BackoffOut GhResp :=
    if 200 ≤ (call attempt).status ∧ (call attempt).status < 300 then
      ⟨.ok (call attempt), attempt + 1, []⟩
    else if (call attempt).status = 403 ∨ (call attempt).status = 429 then
      match retriesLeft with
      | 0 =>
        ⟨.error ("GitHub API error " ++ toString (call attempt).status ++ ": " ++
          (call attempt).errText), attempt + 1, []⟩
      | rl + 1 =>
        let rest := ghBackoffAux call base nowAt rl (attempt + 1)
        ⟨rest.result, rest.attempts,
          ghRetrySleep (call attempt) (base * 2 ^ attempt) (nowAt attempt) :: rest.sleeps⟩
    else
      ⟨.error ("GitHub API error " ++ toString (call attempt).status ++ ": " ++
        (call attempt).errText), attempt + 1, []⟩

/-- GitHubIRHunt._call_with_backoff entry point. -/
def ghBackoff (call : Nat → GhResp) (base : ℚ) (nowAt : Nat → ℤ)
    (maxRetries : Nat) : BackoffOut GhResp :=
  ghBackoffAux call base nowAt maxRetries 0

/-- The statistics block of search_audit_log. -/
structure GhStats where
  total_events_returned : Nat
  pages_fetched : Nat
  phrase : String
  include_value : String
  deriving Repr, DecidableEq

/-- The OperationResult of one search_audit_log run plus ghost observables. -/
structure GhRunOut where
  events : List GhNormEvent
  success : Bool
  errors : List String
  stats : GhStats
  callsMade : Nat
  totalAttempts : Nat
  aborted : Bool
  deriving Repr, DecidableEq

/-- Caller-facing arguments of GitHubIRHunt.search_audit_log. -/
structure GhCfg where
  actor : Option String := none
  action : Option String := none
  repo : Option String := none
  sourceIp : Option String := none
  startTime : Option GhDatetime := none
  endTime : Option GhDatetime := none
  includeArg : Option String := none
  configInclude : String := "web"
  maxEvents : Int := 500
  perPage : Int := 100
  maxRetries : Nat := 5
  baseDelay : ℚ := 1
  nowAt : Nat → ℤ := fun _ => 0

/-- The inner for-loop of search_audit_log over one page: stop at the cap,
append normalized events. -/
def ghIngest (maxEvents : Int) :
    List GhNormEvent → List GhRawEvent → List GhNormEvent
  | acc, [] => acc
  | acc, ev :: rest =>
    if (acc.length : Int) ≥ maxEvents then acc
    else ghIngest maxEvents (acc ++ [ghNormalizeEvent ev]) rest

/-- Package the GitHub run output. -/
def ghMkOut (phrase includeValue : String) (acc : List GhNormEvent)
    (success : Bool) (errors : List String) (page calls att : Nat)
    (aborted : Bool) : GhRunOut :=
  { events := acc
    success := success
    errors := errors
    stats :=
      { total_events_returned := acc.length
        pages_fetched := page
        phrase := phrase
        include_value := includeValue }
    callsMade := calls
    totalAttempts := att
    aborted := aborted }

/-- The main pagination loop of GitHubIRHunt.search_audit_log: loop while
under the cap; an empty or non-list body ends pagination, as does a page
shorter than the clamped per_page. -/
def ghSearchAux (c : GhCfg) (phrase includeValue : String) (perPageClamped : Int) :
    List (Nat → GhResp) → List GhNormEvent → Nat → Nat → Nat → GhRunOut
  | script, acc, page, calls, att =>
    if (acc.length : Int) < c.maxEvents then
      match script with
      | [] => ghMkOut phrase includeValue acc true [] page calls att false
      | callFn :: rest =>
        let b := ghBackoff callFn c.baseDelay c.nowAt c.maxRetries
        match b.result with
        | .error msg =>
          ghMkOut phrase includeValue acc false
            ["GitHub audit log API failed: " ++ msg]
            page (calls + 1) (att + b.attempts) true
        | .ok resp =>
          match resp.body with
          | none =>
            ghMkOut phrase includeValue acc true [] page (calls + 1)
              (att + b.attempts) false
          | some pageEvents =>
            if pageEvents = [] then
              ghMkOut phrase includeValue acc true [] page (calls + 1)
                (att + b.attempts) false
            else
              let acc2 := ghIngest c.maxEvents acc pageEvents
              if (pageEvents.length : Int) < perPageClamped then
                ghMkOut phrase includeValue acc2 true [] page (calls + 1)
                  (att + b.attempts) false
              else
                ghSearchAux c phrase includeValue perPageClamped rest acc2
                  (page + 1) (calls + 1) (att + b.attempts)
    else
      ghMkOut phrase includeValue acc true [] page calls att false

/-- GitHubIRHunt.search_audit_log: build the phrase, resolve the include
value, clamp per_page to [1, 100], run the pagination loop from page 1. -/
def ghSearchAuditLog (c : GhCfg) (script : List (Nat → GhResp)) : GhRunOut :=
  let phrase := ghBuildPhrase c.actor c.action c.repo c.sourceIp c.startTime c.endTime
  let includeValue := pyOrStr c.includeArg c.configInclude
  ghSearchAux c phrase includeValue (min (max c.perPage 1) 100) script [] 1 0 0

/-! ## Cloud-logging provider (GCP Cloud Logging, src/dredge/gcp_ir/hunt.py) -/

/-- A raw Cloud Logging LogEntry as _normalize_entry reads it; resource and
labels model the mapping attributes (possibly empty, which Python treats as
falsy), payload the dict/str/proto payload kept as-is. -/
structure GcpEntry where
  timestamp : Option String := none
  logName : Option String := none
  severity : Option String := none
  trace : Option String := none
  spanId : Option String := none
  insertId : Option String := none
  resource : Option (List (String × String)) := none
  labels : Option (List (String × String)) := none
  payload : Option String := none
  deriving Repr, DecidableEq

/-- The normalized log-entry dict produced by GcpIRHunt._normalize_entry. -/
structure GcpNormEntry where
  timestamp : Option String
  log_name : Option String
  severity : Option String
  trace : Option String
  span_id : Option String
  insert_id : Option String
  resource : Option (List (String × String))
  labels : Option (List (String × String))
  payload : Option String
  deriving Repr, DecidableEq

/-- GcpIRHunt._normalize_entry: empty resource/labels mappings are falsy
and become None; the payload is carried over as-is. -/
def gcpNormalizeEntry (e : GcpEntry) : GcpNormEntry :=
  { timestamp := e.timestamp
    log_name := e.logName
    severity := e.severity
    trace := e.trace
    span_id := e.spanId
    insert_id := e.insertId
    resource :=
      match e.resource with
      | some l => if l ≠ [] then some l else none
      | none => none
    labels :=
      match e.labels with
      | some l => if l ≠ [] then some l else none
      | none => none
    payload := e.payload }

/-- A datetime as the GCP filter builder sees it: its RFC3339
representation astimezone(utc).isoformat(). -/
structure GcpDatetime where
  iso : String
  deriving Repr, DecidableEq

/-- The clause list built by GcpIRHunt._build_filter: a log_id(...) clause,
equality clauses for each supplied field, and full-timestamp range clauses. -/
def gcpBuildFilterParts (principalEmail methodName resourceName sourceIp : Option String)
    (logId : String) (startTime endTime : Option GcpDatetime) : List String :=
  ["log_id(\"" ++ logId ++ "\")"] ++
  optClause "protoPayload.authenticationInfo.principalEmail=\"" "\"" principalEmail ++
  optClause "protoPayload.methodName=\"" "\"" methodName ++
  optClause "protoPayload.resourceName=\"" "\"" resourceName ++
  optClause "protoPayload.requestMetadata.callerIp=\"" "\"" sourceIp ++
  (match startTime, endTime with
   | some s, some e =>
     ["timestamp >= \"" ++ s.iso ++ "\" AND timestamp <= \"" ++ e.iso ++ "\""]
   | some s, none => ["timestamp >= \"" ++ s.iso ++ "\""]
   | none, some e => ["timestamp <= \"" ++ e.iso ++ "\""]
   | none, none => [])

/-- GcpIRHunt._build_filter: the clauses joined with " AND ". -/
def gcpBuildFilter (principalEmail methodName resourceName sourceIp : Option String)
    (logId : String) (startTime endTime : Option GcpDatetime) : String :=
  String.intercalate " AND "
    (gcpBuildFilterParts principalEmail methodName resourceName sourceIp
      logId startTime endTime)

/-- The iterator returned by one successful list_entries call: the first
page (none = iterator.pages is immediately exhausted, StopIteration) and
the next_page_token. -/
structure GcpIter where
  firstPage : Option (List GcpEntry)
  nextPageToken : Option String
  deriving Repr, DecidableEq

/-- Outcome of one raw list_entries call attempt: success, one of the two
retryable rate-limit exceptions, or any other (fatal) exception. -/
inductive GcpOutcome where
  | ok (it : GcpIter)
  | resourceExhausted (msg : String)
  | tooManyRequests (msg : String)
  | fatal (msg : String)
  deriving Repr, DecidableEq

/-- GcpIRHunt._call_with_backoff, retriesLeft = throttle_max_retries - attempt:
ResourceExhausted/TooManyRequests sleep base*2^attempt and retry; on
exhaustion a distinct rate-limit error carrying the cause is raised; any
other exception propagates at once. -/
def gcpBackoffAux (call : Nat → GcpOutcome) (base : ℚ) :
    Nat → Nat → BackoffOut GcpIter
  | retriesLeft, attempt =>
    match call attempt with
    | .ok it => ⟨.ok it, attempt + 1, []⟩
    | .resourceExhausted msg =>
      match retriesLeft with
      | 0 =>
        ⟨.error ("GCP Logging rate limit exceeded and retries exhausted: " ++ msg),
          attempt + 1, []⟩
      | rl + 1 =>
        let rest := gcpBackoffAux call base rl (attempt + 1)
        ⟨rest.result, rest.attempts, base * 2 ^ attempt :: rest.sleeps⟩
    | .tooManyRequests msg =>
      match retriesLeft with
      | 0 =>
        ⟨.error ("GCP Logging rate limit exceeded and retries exhausted: " ++ msg),
          attempt + 1, []⟩
      | rl + 1 =>
        let rest := gcpBackoffAux call base rl (attempt + 1)
        ⟨rest.result, rest.attempts, base * 2 ^ attempt :: rest.sleeps⟩
    | .fatal msg => ⟨.error msg, attempt + 1, []⟩

/-- GcpIRHunt._call_with_backoff entry point. -/
def gcpBackoff (call : Nat → GcpOutcome) (base : ℚ) (maxRetries : Nat) :
    BackoffOut GcpIter :=
  gcpBackoffAux call base maxRetries 0

/-- The statistics block of search_logs (no call counter is surfaced). -/
structure GcpStats where
  total_entries_returned : Nat
  filterStr : String
  log_id : String
  deriving Repr, DecidableEq

/-- The OperationResult of one search_logs run plus ghost observables. -/
structure GcpRunOut where
  entries : List GcpNormEntry
  success : Bool
  errors : List String
  stats : GcpStats
  callsMade : Nat
  totalAttempts : Nat
  aborted : Bool
  deriving Repr, DecidableEq

/-- Caller-facing arguments of GcpIRHunt.search_logs. -/
structure GcpCfg where
  principalEmail : Option String := none
  methodName : Option String := none
  resourceName : Option String := none
  sourceIp : Option String := none
  logId : Option String := none
  configDefaultLogId : String := "cloudaudit.googleapis.com/activity"
  startTime : Option GcpDatetime := none
  endTime : Option GcpDatetime := none
  maxEntries : Int := 500
  pageSize : Int := 100
  maxRetries : Nat := 5
  baseDelay : ℚ := 1

/-- The inner for-loop of search_logs over one page: stop at the cap,
append normalized entries. -/
def gcpIngest (maxEntries : Int) :
    List GcpNormEntry → List GcpEntry → List GcpNormEntry
  | acc, [] => acc
  | acc, e :: rest =>
    if (acc.length : Int) ≥ maxEntries then acc
    else gcpIngest maxEntries (acc ++ [gcpNormalizeEntry e]) rest

/-- Package the GCP run output. -/
def gcpMkOut (filterStr logIdValue : String) (acc : List GcpNormEntry)
    (success : Bool) (errors : List String) (calls att : Nat)
    (aborted : Bool) : GcpRunOut :=
  { entries := acc
    success := success
    errors := errors
    stats :=
      { total_entries_returned := acc.length
        filterStr := filterStr
        log_id := logIdValue }
    callsMade := calls
    totalAttempts := att
    aborted := aborted }

/-- The main pagination loop of GcpIRHunt.search_logs: loop while under the
cap; an exhausted iterator (StopIteration) ends pagination, as does a falsy
next_page_token or reaching the cap. -/
def gcpSearchAux (c : GcpCfg) (filterStr logIdValue : String) :
    List (Nat → GcpOutcome) → List GcpNormEntry → Nat → Nat → GcpRunOut
  | script, acc, calls, att =>
    if (acc.length : Int) < c.maxEntries then
      match script with
      | [] => gcpMkOut filterStr logIdValue acc true [] calls att false
      | callFn :: rest =>
        let b := gcpBackoff callFn c.baseDelay c.maxRetries
        match b.result with
        | .error msg =>
          gcpMkOut filterStr logIdValue acc false
            ["GCP Logging API failed: " ++ msg]
            (calls + 1) (att + b.attempts) true
        | .ok it =>
          match it.firstPage with
          | none =>
            gcpMkOut filterStr logIdValue acc true [] (calls + 1)
              (att + b.attempts) false
          | some page =>
            let acc2 := gcpIngest c.maxEntries acc page
            if pyTruthyOpt it.nextPageToken = false ∨
                (acc2.length : Int) ≥ c.maxEntries then
              gcpMkOut filterStr logIdValue acc2 true [] (calls + 1)
                (att + b.attempts) false
            else
              gcpSearchAux c filterStr logIdValue rest acc2
                (calls + 1) (att + b.attempts)
    else
      gcpMkOut filterStr logIdValue acc true [] calls att false

/-- GcpIRHunt.search_logs: resolve the log id, build the filter, run the
pagination loop. -/
def gcpSearchLogs (c : GcpCfg) (script : List (Nat → GcpOutcome)) : GcpRunOut :=
  let logIdValue := pyOrStr c.logId c.configDefaultLogId
  let filterStr := gcpBuildFilter c.principalEmail c.methodName c.resourceName
    c.sourceIp logIdValue c.startTime c.endTime
  gcpSearchAux c filterStr logIdValue script [] 0 0

/-! ## Retryability predicates (the provider-specific policies of §4.2) -/

/-- A CloudTrail call outcome is retryable when it is a ClientError whose
code is in the throttling set. -/
def awsRetryable : AwsOutcome → Prop
  | .ok _ => False
  | .clientError c => c ∈ awsThrottleCodes

instance (o : AwsOutcome) : Decidable (awsRetryable o) :=
  match o with
  | .ok r => isFalse (by simp [awsRetryable])
  | .clientError c => decidable_of_iff (c ∈ awsThrottleCodes) (by simp [awsRetryable])

/-- A GitHub response is successful when its status is 2xx. -/
def ghIsOk (resp : GhResp) : Prop :=
  200 ≤ resp.status ∧ resp.status < 300

instance (resp : GhResp) : Decidable (ghIsOk resp) := by
  unfold ghIsOk; infer_instance

/-- A GitHub response is retryable when it is not 2xx and its status is
403 or 429. -/
def ghRetryable (resp : GhResp) : Prop :=
  ¬ ghIsOk resp ∧ (resp.status = 403 ∨ resp.status = 429)

instance (resp : GhResp) : Decidable (ghRetryable resp) := by
  unfold ghRetryable; infer_instance

/-- A Cloud Logging call outcome is retryable when it is one of the two
rate-limit exception kinds. -/
def gcpRetryable : GcpOutcome → Prop
  | .ok _ => False
  | .resourceExhausted _ => True
  | .tooManyRequests _ => True
  | .fatal _ => False

instance (o : GcpOutcome) : Decidable (gcpRetryable o) :=
  match o with
  | .ok it => isFalse (by simp [gcpRetryable])
  | .resourceExhausted m => isTrue (by simp [gcpRetryable])
  | .tooManyRequests m => isTrue (by simp [gcpRetryable])
  | .fatal m => isFalse (by simp [gcpRetryable])

/-! ## Concrete scripted exchanges used as test inputs -/

/-- CloudTrail attempt script: throttled once, then an empty page. -/
def awsCallNF : Nat → AwsOutcome := fun i =>
  if i = 0 then .clientError "Throttling" else .ok ⟨[], none⟩

/-- CloudTrail attempt script: every attempt is throttled. -/
def awsCallAlways : Nat → AwsOutcome := fun _ => .clientError "Throttling"

/-- CloudTrail attempt script: a non-retryable client error. -/
def awsCallFatal : Nat → AwsOutcome := fun _ => .clientError "AccessDenied"

/-- Driver script whose single page fetch is throttled once and then
succeeds with an empty page. -/
def awsThrottleOnceScript : List (Nat → AwsOutcome) := [awsCallNF]

/-- GitHub attempt script: the first attempt is rate-limited with zero
remaining quota and a reset 1000 seconds in the future, the second attempt
succeeds with an empty page. -/
def ghResetCall : Nat → GhResp := fun i =>
  if i = 0 then
    { status := 429, remaining := some "0", reset := some (some 1000),
      body := none, errText := "rate limited" }
  else { status := 200, body := some [] }

/-- GitHub attempt script: every attempt is rate-limited (no headers). -/
def ghCallAlways : Nat → GhResp := fun _ => { status := 429, errText := "rl" }

/-- GitHub attempt script: a server error (not a rate-limit status). -/
def ghCallFatal : Nat → GhResp := fun _ => { status := 500, errText := "boom" }

/-- Cloud Logging attempt script: a quota failure, then an empty iterator. -/
def gcpCallNF : Nat → GcpOutcome := fun i =>
  if i = 0 then .resourceExhausted "quota" else .ok ⟨some [], none⟩

/-- Cloud Logging attempt script: every attempt hits the rate limit. -/
def gcpCallAlways : Nat → GcpOutcome := fun _ => .tooManyRequests "quota"

/-- Cloud Logging attempt script: a non-retryable failure. -/
def gcpCallFatal : Nat → GcpOutcome := fun _ => .fatal "boom"

/-- A CloudTrail event with the searched-for name and source IP. -/
def c1RawGood : AwsRawEvent :=
  { eventName := some "ConsoleLogin", sourceIPAddressTop := some (some "9.9.9.9") }

/-- A CloudTrail event with a different event name. -/
def c1RawWrongName : AwsRawEvent :=
  { eventName := some "Other", sourceIPAddressTop := some (some "9.9.9.9") }

/-- A CloudTrail event with a different source IP. -/
def c1RawWrongIp : AwsRawEvent :=
  { eventName := some "ConsoleLogin", sourceIPAddressTop := some (some "1.1.1.1") }

/-- A lookup_events call with all four filters supplied. -/
def c1Cfg : AwsCfg :=
  { userName := some "alice", accessKeyId := some "AKIA123",
    eventName := some "ConsoleLogin", sourceIp := some "9.9.9.9" }

/-- One page holding a wrong-name, a matching and a wrong-IP event. -/
def c1Script : List (Nat → AwsOutcome) :=
  [fun _ => .ok ⟨[c1RawWrongName, c1RawGood, c1RawWrongIp], none⟩]

/-- A GitHub audit-log record. -/
def ghRaw1 : GhRawEvent :=
  { action := some "repo.create", actor := some "alice" }

/-- A one-record page (short of the requested per_page of 2). -/
def c8Call1 : Nat → GhResp := fun _ => { status := 200, body := some [ghRaw1] }

/-- A full page that must never be requested after the short one. -/
def c8Call2 : Nat → GhResp := fun _ => { status := 200, body := some [ghRaw1, ghRaw1] }

/-- A GitHub driver script: a short page followed by a further page. -/
def c8Script : List (Nat → GhResp) := [c8Call1, c8Call2]

/-- A search_audit_log call requesting two records per page. -/
def c8Cfg : GhCfg := { perPage := 2 }

/-! ## Lemmas about the page-ingestion loops -/

lemma awsIngest_mem (M : Int) (en ip : Option String) (attrs : List LookupAttribute)
    (raws : List AwsRawEvent) :
    ∀ (acc : List AwsNormEvent) (n : AwsNormEvent),
      n ∈ awsIngest M en ip attrs acc raws →
      n ∈ acc ∨ ∃ r ∈ raws, n = awsNormalizeEvent r ∧
        awsClientSkip en ip attrs n = false := by
  induction raws with
  | nil =>
    intro acc n h
    exact Or.inl (by simpa [awsIngest] using h)
  | cons r rs ih =>
    intro acc n h
    simp only [awsIngest] at h
    split at h
    · exact Or.inl h
    · split at h
      · rcases ih acc n h with h' | ⟨r', hr', h1, h2⟩
        · exact Or.inl h'
        · exact Or.inr ⟨r', List.mem_cons_of_mem _ hr', h1, h2⟩
      · rcases ih (acc ++ [awsNormalizeEvent r]) n h with h' | ⟨r', hr', h1, h2⟩
        · rcases List.mem_append.1 h' with h'' | h''
          · exact Or.inl h''
          · refine Or.inr ⟨r, List.mem_cons_self _ _, ?_, ?_⟩
            · simpa using h''
            · have hn : n = awsNormalizeEvent r := by simpa using h''
              subst hn
              simp_all
        · exact Or.inr ⟨r', List.mem_cons_of_mem _ hr', h1, h2⟩

lemma awsIngest_append (M : Int) (en ip : Option String)
    (attrs : List LookupAttribute) (raws : List AwsRawEvent) :
    ∀ acc : List AwsNormEvent,
      ∃ tail, awsIngest M en ip attrs acc raws = acc ++ tail := by
  induction raws with
  | nil => intro acc; exact ⟨[], by simp [awsIngest]⟩
  | cons r rs ih =>
    intro acc
    simp only [awsIngest]
    split
    · exact ⟨[], by simp⟩
    · split
      · exact ih acc
      · rcases ih (acc ++ [awsNormalizeEvent r]) with ⟨tail, ht⟩
        exact ⟨awsNormalizeEvent r :: tail, by simp [ht]⟩

lemma awsIngest_length (M : Int) (en ip : Option String)
    (attrs : List LookupAttribute) (raws : List AwsRawEvent) :
    ∀ acc : List AwsNormEvent,
      (awsIngest M en ip attrs acc raws).length ≤ max acc.length M.toNat := by
  induction raws with
  | nil => intro acc; simp [awsIngest]
  | cons r rs ih =>
    intro acc
    simp only [awsIngest]
    split
    · exact le_max_left _ _
    · rename_i hlt
      push_neg at hlt
      have hacc : acc.length + 1 ≤ M.toNat := by omega
      split
      · exact ih acc
      · calc (awsIngest M en ip attrs (acc ++ [awsNormalizeEvent r]) rs).length
            ≤ max (acc ++ [awsNormalizeEvent r]).length M.toNat := ih _
          _ ≤ max acc.length M.toNat := by
              simp only [List.length_append, List.length_cons, List.length_nil]
              omega

lemma ghIngest_append (M : Int) (evs : List GhRawEvent) :
    ∀ acc : List GhNormEvent, ∃ tail, ghIngest M acc evs = acc ++ tail := by
  induction evs with
  | nil => intro acc; exact ⟨[], by simp [ghIngest]⟩
  | cons e rest ih =>
    intro acc
    simp only [ghIngest]
    split
    · exact ⟨[], by simp⟩
    · rcases ih (acc ++ [ghNormalizeEvent e]) with ⟨tail, ht⟩
      exact ⟨ghNormalizeEvent e :: tail, by simp [ht]⟩

lemma ghIngest_length (M : Int) (evs : List GhRawEvent) :
    ∀ acc : List GhNormEvent,
      (ghIngest M acc evs).length ≤ max acc.length M.toNat := by
  induction evs with
  | nil => intro acc; simp [ghIngest]
  | cons e rest ih =>
    intro acc
    simp only [ghIngest]
    split
    · exact le_max_left _ _
    · rename_i hlt
      push_neg at hlt
      calc (ghIngest M (acc ++ [ghNormalizeEvent e]) rest).length
          ≤ max (acc ++ [ghNormalizeEvent e]).length M.toNat := ih _
        _ ≤ max acc.length M.toNat := by
            simp only [List.length_append, List.length_cons, List.length_nil]
            omega

lemma gcpIngest_append (M : Int) (page : List GcpEntry) :
    ∀ acc : List GcpNormEntry, ∃ tail, gcpIngest M acc page = acc ++ tail := by
  induction page with
  | nil => intro acc; exact ⟨[], by simp [gcpIngest]⟩
  | cons e rest ih =>
    intro acc
    simp only [gcpIngest]
    split
    · exact ⟨[], by simp⟩
    · rcases ih (acc ++ [gcpNormalizeEntry e]) with ⟨tail, ht⟩
      exact ⟨gcpNormalizeEntry e :: tail, by simp [ht]⟩

lemma gcpIngest_length (M : Int) (page : List GcpEntry) :
    ∀ acc : List GcpNormEntry,
      (gcpIngest M acc page).length ≤ max acc.length M.toNat := by
  induction page with
  | nil => intro acc; simp [gcpIngest]
  | cons e rest ih =>
    intro acc
    simp only [gcpIngest]
    split
    · exact le_max_left _ _
    · rename_i hlt
      push_neg at hlt
      calc (gcpIngest M (acc ++ [gcpNormalizeEntry e]) rest).length
          ≤ max (acc ++ [gcpNormalizeEntry e]).length M.toNat := ih _
        _ ≤ max acc.length M.toNat := by
            simp only [List.length_append, List.length_cons, List.length_nil]
            omega

/-! ## Lemmas about the cloud-infra pagination driver -/

lemma awsMkOut_events (eS eE : ℚ) (attrs : List LookupAttribute)
    (acc : List AwsNormEvent) (success : Bool) (errors : List String)
    (api calls att : Nat) (plog : List AwsParams) (aborted : Bool) :
    (awsMkOut eS eE attrs acc success errors api calls att plog aborted).events = acc :=
  rfl

lemma awsLookupAux_events_mem (c : AwsCfg) (attrs : List LookupAttribute)
    (eS eE : ℚ) (script : List (Nat → AwsOutcome)) :
    ∀ tok acc calls api att plog n,
      n ∈ (awsLookupAux c attrs eS eE script tok acc calls api att plog).events →
      n ∈ acc ∨ ∃ r, n = awsNormalizeEvent r ∧
        awsClientSkip c.eventName c.sourceIp attrs n = false := by
  induction script with
  | nil =>
    intro tok acc calls api att plog n h
    simp only [awsLookupAux] at h
    split at h
    · exact Or.inl h
    · exact Or.inl h
  | cons f rest ih =>
    intro tok acc calls api att plog n h
    simp only [awsLookupAux] at h
    split at h
    · exact Or.inl h
    · rcases hres : (awsBackoff f c.baseDelay c.maxRetries).result with msg | resp <;>
        simp only [hres] at h
      · exact Or.inl h
      · split at h
        · rcases ih _ _ _ _ _ _ n h with h' | h'
          · rcases awsIngest_mem c.maxEvents c.eventName c.sourceIp attrs resp.events acc n h'
              with h'' | ⟨r, _, h1, h2⟩
            · exact Or.inl h''
            · exact Or.inr ⟨r, h1, h2⟩
          · exact Or.inr h'
        · rcases awsIngest_mem c.maxEvents c.eventName c.sourceIp attrs resp.events acc n h
            with h'' | ⟨r, _, h1, h2⟩
          · exact Or.inl h''
          · exact Or.inr ⟨r, h1, h2⟩

lemma awsLookupAux_events_length (c : AwsCfg) (attrs : List LookupAttribute)
    (eS eE : ℚ) (script : List (Nat → AwsOutcome)) :
    ∀ tok acc calls api att plog, acc.length ≤ c.maxEvents.toNat →
      (awsLookupAux c attrs eS eE script tok acc calls api att plog).events.length ≤
        c.maxEvents.toNat := by
  induction script with
  | nil =>
    intro tok acc calls api att plog hacc
    simp only [awsLookupAux]
    split
    · exact hacc
    · exact hacc
  | cons f rest ih =>
    intro tok acc calls api att plog hacc
    simp only [awsLookupAux]
    split
    · exact hacc
    · rcases hres : (awsBackoff f c.baseDelay c.maxRetries).result with msg | resp <;>
        simp only [hres]
      · exact hacc
      · have hing : (awsIngest c.maxEvents c.eventName c.sourceIp attrs acc
            resp.events).length ≤ c.maxEvents.toNat := by
          have := awsIngest_length c.maxEvents c.eventName c.sourceIp attrs resp.events acc
          omega
        split
        · exact ih _ _ _ _ _ _ hing
        · exact hing

lemma awsLookupAux_events_append (c : AwsCfg) (attrs : List LookupAttribute)
    (eS eE : ℚ) (script : List (Nat → AwsOutcome)) :
    ∀ tok acc calls api att plog,
      ∃ tail, (awsLookupAux c attrs eS eE script tok acc calls api att plog).events =
        acc ++ tail := by
  induction script with
  | nil =>
    intro tok acc calls api att plog
    simp only [awsLookupAux]
    split
    · exact ⟨[], by simp [awsMkOut]⟩
    · exact ⟨[], by simp [awsMkOut]⟩
  | cons f rest ih =>
    intro tok acc calls api att plog
    simp only [awsLookupAux]
    split
    · exact ⟨[], by simp [awsMkOut]⟩
    · rcases hres : (awsBackoff f c.baseDelay c.maxRetries).result with msg | resp <;>
        simp only [hres]
      · exact ⟨[], by simp [awsMkOut]⟩
      · rcases awsIngest_append c.maxEvents c.eventName c.sourceIp attrs resp.events acc
          with ⟨t1, ht1⟩
        split
        · rcases ih resp.nextToken (awsIngest c.maxEvents c.eventName c.sourceIp attrs
            acc resp.events) (calls + 1) (api + 1)
            (att + (awsBackoff f c.baseDelay c.maxRetries).attempts) _ with ⟨t2, ht2⟩
          exact ⟨t1 ++ t2, by rw [ht2, ht1, List.append_assoc]⟩
        · exact ⟨t1, by simpa [awsMkOut] using ht1⟩

lemma awsLookupAux_status (c : AwsCfg) (attrs : List LookupAttribute)
    (eS eE : ℚ) (script : List (Nat → AwsOutcome)) :
    ∀ tok acc calls api att plog,
      ((awsLookupAux c attrs eS eE script tok acc calls api att plog).aborted = false →
        (awsLookupAux c attrs eS eE script tok acc calls api att plog).success = true ∧
        (awsLookupAux c attrs eS eE script tok acc calls api att plog).errors = []) ∧
      ((awsLookupAux c attrs eS eE script tok acc calls api att plog).aborted = true →
        (awsLookupAux c attrs eS eE script tok acc calls api att plog).success = false ∧
        (awsLookupAux c attrs eS eE script tok acc calls api att plog).errors ≠ []) := by
  induction script with
  | nil =>
    intro tok acc calls api att plog
    simp only [awsLookupAux]
    split
    · exact ⟨fun _ => ⟨rfl, rfl⟩, fun hb => by simp [awsMkOut] at hb⟩
    · exact ⟨fun _ => ⟨rfl, rfl⟩, fun hb => by simp [awsMkOut] at hb⟩
  | cons f rest ih =>
    intro tok acc calls api att plog
    simp only [awsLookupAux]
    split
    · exact ⟨fun _ => ⟨rfl, rfl⟩, fun hb => by simp [awsMkOut] at hb⟩
    · rcases hres : (awsBackoff f c.baseDelay c.maxRetries).result with msg | resp <;>
        simp only [hres]
      · exact ⟨fun hb => by simp [awsMkOut] at hb, fun _ => ⟨rfl, by simp [awsMkOut]⟩⟩
      · split
        · exact ih _ _ _ _ _ _
        · exact ⟨fun _ => ⟨rfl, rfl⟩, fun hb => by simp [awsMkOut] at hb⟩

lemma awsLookupAux_allok (c : AwsCfg) (attrs : List LookupAttribute)
    (eS eE : ℚ) (script : List (Nat → AwsOutcome)) :
    ∀ tok acc calls api att plog,
      (∀ f ∈ script, ∃ x, (awsBackoff f c.baseDelay c.maxRetries).result = .ok x) →
      (awsLookupAux c attrs eS eE script tok acc calls api att plog).aborted = false := by
  induction script with
  | nil =>
    intro tok acc calls api att plog _
    simp only [awsLookupAux]
    split
    · rfl
    · rfl
  | cons f rest ih =>
    intro tok acc calls api att plog hok
    simp only [awsLookupAux]
    split
    · rfl
    · rcases hres : (awsBackoff f c.baseDelay c.maxRetries).result with msg | resp <;>
        simp only [hres]
      · rcases hok f (List.mem_cons_self _ _) with ⟨x, hx⟩
        rw [hres] at hx
        cases hx
      · split
        · exact ih _ _ _ _ _ _ (fun g hg => hok g (List.mem_cons_of_mem _ hg))
        · rfl

lemma awsBackoffAux_attempts_pos (call : Nat → AwsOutcome) (base : ℚ) :
    ∀ rl a, a + 1 ≤ (awsBackoffAux call base rl a).attempts := by
  intro rl
  induction rl with
  | zero =>
    intro a
    rw [awsBackoffAux]
    rcases hc : call a with r | co <;> simp only [hc]
    · simp
    · split <;> simp
  | succ n ih =>
    intro a
    rw [awsBackoffAux]
    rcases hc : call a with r | co <;> simp only [hc]
    · simp
    · split
      · have := ih (a + 1)
        simp only []
        omega
      · simp

lemma awsLookupAux_stats (c : AwsCfg) (attrs : List LookupAttribute)
    (eS eE : ℚ) (script : List (Nat → AwsOutcome)) :
    ∀ tok acc calls api att plog, api = calls → api ≤ att →
      (awsLookupAux c attrs eS eE script tok acc calls api att plog).stats.api_calls +
        (if (awsLookupAux c attrs eS eE script tok acc calls api att plog).aborted
          then 1 else 0) =
        (awsLookupAux c attrs eS eE script tok acc calls api att plog).callsMade ∧
      (awsLookupAux c attrs eS eE script tok acc calls api att plog).stats.api_calls ≤
        (awsLookupAux c attrs eS eE script tok acc calls api att plog).totalAttempts := by
  induction script with
  | nil =>
    intro tok acc calls api att plog h1 h2
    simp only [awsLookupAux]
    split
    · simp [awsMkOut]; omega
    · simp [awsMkOut]; omega
  | cons f rest ih =>
    intro tok acc calls api att plog h1 h2
    have hpos : 1 ≤ (awsBackoff f c.baseDelay c.maxRetries).attempts := by
      simpa [awsBackoff] using awsBackoffAux_attempts_pos f c.baseDelay c.maxRetries 0
    simp only [awsLookupAux]
    split
    · simp [awsMkOut]; omega
    · rcases hres : (awsBackoff f c.baseDelay c.maxRetries).result with msg | resp <;>
        simp only [hres]
      · simp [awsMkOut]; omega
      · split
        · exact ih _ _ _ _ _ _ (by omega) (by omega)
        · simp [awsMkOut]; omega

/-! ## Lemmas about the backoff executors -/

lemma awsBackoffAux_ok (call : Nat → AwsOutcome) (base : ℚ) (r : AwsResp) :
    ∀ (N a rl : Nat), N ≤ rl →
      (∀ j, a ≤ j → j < a + N → awsRetryable (call j)) →
      call (a + N) = .ok r →
      awsBackoffAux call base rl a =
        ⟨.ok r, a + N + 1, (List.range N).map (fun j => base * 2 ^ (a + j))⟩ := by
  intro N
  induction N with
  | zero =>
    intro a rl _ _ hok
    rw [awsBackoffAux]
    rw [show call a = AwsOutcome.ok r from hok]
    simp
  | succ n ih =>
    intro a rl hle hretry hok
    have hra : awsRetryable (call a) := hretry a le_rfl (by omega)
    rcases hc : call a with r' | co
    · rw [hc] at hra; simp [awsRetryable] at hra
    · rw [hc] at hra
      have hmem : co ∈ awsThrottleCodes := hra
      obtain ⟨rl', rfl⟩ : ∃ rl', rl = rl' + 1 := ⟨rl - 1, by omega⟩
      rw [awsBackoffAux]
      simp only [hc, if_pos hmem]
      have hrec := ih (a + 1) rl' (by omega)
        (fun j h1 h2 => hretry j (by omega) (by omega))
        (by rw [show a + 1 + n = a + (n + 1) by omega]; exact hok)
      rw [hrec]
      have hatt : a + 1 + n + 1 = a + (n + 1) + 1 := by omega
      have hs : (base * 2 ^ a) :: (List.range n).map (fun j => base * 2 ^ (a + 1 + j)) =
          (List.range (n + 1)).map (fun j => base * 2 ^ (a + j)) := by
        rw [List.range_succ_eq_map, List.map_cons, List.map_map]
        refine congrArg₂ List.cons (by simp) (List.map_congr_left (fun j _ => ?_))
        have hj : a + 1 + j = a + Nat.succ j := by omega
        simp only [Function.comp_apply, hj]
      show (⟨Except.ok r, a + 1 + n + 1,
        (base * 2 ^ a) :: (List.range n).map (fun j => base * 2 ^ (a + 1 + j))⟩ :
          BackoffOut AwsResp) = _
      rw [hatt, hs]

lemma awsBackoffAux_exhaust (call : Nat → AwsOutcome) (base : ℚ)
    (hall : ∀ j, awsRetryable (call j)) :
    ∀ rl a, (awsBackoffAux call base rl a).attempts = a + rl + 1 ∧
      (∃ m, (awsBackoffAux call base rl a).result = .error m) ∧
      (awsBackoffAux call base rl a).sleeps =
        (List.range rl).map (fun j => base * 2 ^ (a + j)) := by
  intro rl
  induction rl with
  | zero =>
    intro a
    have hra := hall a
    rcases hc : call a with r | co
    · rw [hc] at hra; simp [awsRetryable] at hra
    · rw [hc] at hra
      have hmem : co ∈ awsThrottleCodes := hra
      rw [awsBackoffAux]
      simp only [hc]
      rw [if_pos hmem]
      exact ⟨rfl, ⟨_, rfl⟩, by simp⟩
  | succ n ih =>
    intro a
    have hra := hall a
    rcases hc : call a with r | co
    · rw [hc] at hra; simp [awsRetryable] at hra
    · rw [hc] at hra
      have hmem : co ∈ awsThrottleCodes := hra
      rw [awsBackoffAux]
      simp only [hc]
      rw [if_pos hmem]
      obtain ⟨h1, h2, h3⟩ := ih (a + 1)
      refine ⟨?_, ?_, ?_⟩
      · show (awsBackoffAux call base n (a + 1)).attempts = a + (n + 1) + 1
        rw [h1]; omega
      · exact h2
      · show base * 2 ^ a :: (awsBackoffAux call base n (a + 1)).sleeps =
          (List.range (n + 1)).map (fun j => base * 2 ^ (a + j))
        rw [h3, List.range_succ_eq_map, List.map_cons, List.map_map]
        refine congrArg₂ List.cons (by simp) (List.map_congr_left (fun j _ => ?_))
        have hj : a + 1 + j = a + Nat.succ j := by omega
        simp only [Function.comp_apply, hj]

lemma awsBackoff_nonretryable (call : Nat → AwsOutcome) (base : ℚ) (maxR : Nat)
    (co : String) (hc : call 0 = .clientError co) (hmem : co ∉ awsThrottleCodes) :
    awsBackoff call base maxR =
      ⟨.error ("ClientError " ++ co), 1, []⟩ := by
  rw [awsBackoff, awsBackoffAux]
  simp only [hc, if_neg hmem]

lemma gcpBackoffAux_ok (call : Nat → GcpOutcome) (base : ℚ) (it : GcpIter) :
    ∀ (N a rl : Nat), N ≤ rl →
      (∀ j, a ≤ j → j < a + N → gcpRetryable (call j)) →
      call (a + N) = .ok it →
      gcpBackoffAux call base rl a =
        ⟨.ok it, a + N + 1, (List.range N).map (fun j => base * 2 ^ (a + j))⟩ := by
  intro N
  induction N with
  | zero =>
    intro a rl _ _ hok
    rw [gcpBackoffAux]
    rw [show call a = GcpOutcome.ok it from hok]
    simp
  | succ n ih =>
    intro a rl hle hretry hok
    have hra : gcpRetryable (call a) := hretry a le_rfl (by omega)
    obtain ⟨rl', rfl⟩ : ∃ rl', rl = rl' + 1 := ⟨rl - 1, by omega⟩
    have hrec := ih (a + 1) rl' (by omega)
      (fun j h1 h2 => hretry j (by omega) (by omega))
      (by rw [show a + 1 + n = a + (n + 1) by omega]; exact hok)
    have hatt : a + 1 + n + 1 = a + (n + 1) + 1 := by omega
    have hs : (base * 2 ^ a) :: (List.range n).map (fun j => base * 2 ^ (a + 1 + j)) =
        (List.range (n + 1)).map (fun j => base * 2 ^ (a + j)) := by
      rw [List.range_succ_eq_map, List.map_cons, List.map_map]
      refine congrArg₂ List.cons (by simp) (List.map_congr_left (fun j _ => ?_))
      have hj : a + 1 + j = a + Nat.succ j := by omega
      simp only [Function.comp_apply, hj]
    rcases hc : call a with it' | m | m | m
    · rw [hc] at hra; simp [gcpRetryable] at hra
    · rw [gcpBackoffAux]
      simp only [hc]
      rw [hrec]
      show (⟨Except.ok it, a + 1 + n + 1,
        (base * 2 ^ a) :: (List.range n).map (fun j => base * 2 ^ (a + 1 + j))⟩ :
          BackoffOut GcpIter) = _
      rw [hatt, hs]
    · rw [gcpBackoffAux]
      simp only [hc]
      rw [hrec]
      show (⟨Except.ok it, a + 1 + n + 1,
        (base * 2 ^ a) :: (List.range n).map (fun j => base * 2 ^ (a + 1 + j))⟩ :
          BackoffOut GcpIter) = _
      rw [hatt, hs]
    · rw [hc] at hra; simp [gcpRetryable] at hra

lemma gcpBackoffAux_exhaust (call : Nat → GcpOutcome) (base : ℚ)
    (hall : ∀ j, gcpRetryable (call j)) :
    ∀ rl a, (gcpBackoffAux call base rl a).attempts = a + rl + 1 ∧
      (∃ m, (gcpBackoffAux call base rl a).result =
        .error ("GCP Logging rate limit exceeded and retries exhausted: " ++ m)) ∧
      (gcpBackoffAux call base rl a).sleeps =
        (List.range rl).map (fun j => base * 2 ^ (a + j)) := by
  intro rl
  induction rl with
  | zero =>
    intro a
    have hra := hall a
    rcases hc : call a with it | m | m | m
    · rw [hc] at hra; simp [gcpRetryable] at hra
    · rw [gcpBackoffAux]; simp only [hc]
      refine ⟨by simp, ⟨m, by simp⟩, by simp⟩
    · rw [gcpBackoffAux]; simp only [hc]
      refine ⟨by simp, ⟨m, by simp⟩, by simp⟩
    · rw [hc] at hra; simp [gcpRetryable] at hra
  | succ n ih =>
    intro a
    have hra := hall a
    obtain ⟨h1, h2, h3⟩ := ih (a + 1)
    have hs : base * 2 ^ a :: (gcpBackoffAux call base n (a + 1)).sleeps =
        (List.range (n + 1)).map (fun j => base * 2 ^ (a + j)) := by
      rw [h3, List.range_succ_eq_map, List.map_cons, List.map_map]
      refine congrArg₂ List.cons (by simp) (List.map_congr_left (fun j _ => ?_))
      have hj : a + 1 + j = a + Nat.succ j := by omega
      simp only [Function.comp_apply, hj]
    rcases hc : call a with it | m | m | m
    · rw [hc] at hra; simp [gcpRetryable] at hra
    · rw [gcpBackoffAux]
      simp only [hc]
      refine ⟨?_, h2, hs⟩
      show (gcpBackoffAux call base n (a + 1)).attempts = a + (n + 1) + 1
      rw [h1]; omega
    · rw [gcpBackoffAux]
      simp only [hc]
      refine ⟨?_, h2, hs⟩
      show (gcpBackoffAux call base n (a + 1)).attempts = a + (n + 1) + 1
      rw [h1]; omega
    · rw [hc] at hra; simp [gcpRetryable] at hra

lemma gcpBackoff_fatal (call : Nat → GcpOutcome) (base : ℚ) (maxR : Nat)
    (m : String) (hc : call 0 = .fatal m) :
    gcpBackoff call base maxR = ⟨.error m, 1, []⟩ := by
  rw [gcpBackoff, gcpBackoffAux]
  simp only [hc]

lemma ghBackoffAux_ok (call : Nat → GhResp) (base : ℚ) (nowAt : Nat → ℤ) :
    ∀ (N a rl : Nat), N ≤ rl →
      (∀ j, a ≤ j → j < a + N → ghRetryable (call j)) →
      ghIsOk (call (a + N)) →
      ghBackoffAux call base nowAt rl a =
        ⟨.ok (call (a + N)), a + N + 1,
          (List.range N).map (fun j =>
            ghRetrySleep (call (a + j)) (base * 2 ^ (a + j)) (nowAt (a + j)))⟩ := by
  intro N
  induction N with
  | zero =>
    intro a rl _ _ hok
    rw [ghBackoffAux.eq_def]
    rw [if_pos (by simpa using hok)]
    simp
  | succ n ih =>
    intro a rl hle hretry hok
    have hra : ghRetryable (call a) := hretry a le_rfl (by omega)
    obtain ⟨rl', rfl⟩ : ∃ rl', rl = rl' + 1 := ⟨rl - 1, by omega⟩
    have hrec := ih (a + 1) rl' (by omega)
      (fun j h1 h2 => hretry j (by omega) (by omega))
      (by rw [show a + 1 + n = a + (n + 1) by omega]; exact hok)
    rw [show a + 1 + n = a + (n + 1) by omega] at hrec
    rw [ghBackoffAux]
    rw [if_neg (by exact hra.1)]
    rw [if_pos (by exact hra.2)]
    simp only []
    rw [hrec]
    have hs : ghRetrySleep (call a) (base * 2 ^ a) (nowAt a) ::
        (List.range n).map (fun j =>
          ghRetrySleep (call (a + 1 + j)) (base * 2 ^ (a + 1 + j)) (nowAt (a + 1 + j))) =
        (List.range (n + 1)).map (fun j =>
          ghRetrySleep (call (a + j)) (base * 2 ^ (a + j)) (nowAt (a + j))) := by
      rw [List.range_succ_eq_map, List.map_cons, List.map_map]
      refine congrArg₂ List.cons (by simp) (List.map_congr_left (fun j _ => ?_))
      have hj : a + 1 + j = a + Nat.succ j := by omega
      simp only [Function.comp_apply, hj]
    show (⟨Except.ok (call (a + (n + 1))), a + (n + 1) + 1,
      ghRetrySleep (call a) (base * 2 ^ a) (nowAt a) ::
        (List.range n).map (fun j =>
          ghRetrySleep (call (a + 1 + j)) (base * 2 ^ (a + 1 + j)) (nowAt (a + 1 + j)))⟩ :
        BackoffOut GhResp) = _
    rw [hs]

lemma ghBackoffAux_exhaust (call : Nat → GhResp) (base : ℚ) (nowAt : Nat → ℤ)
    (hall : ∀ j, ghRetryable (call j)) :
    ∀ rl a, (ghBackoffAux call base nowAt rl a).attempts = a + rl + 1 ∧
      (∃ m, (ghBackoffAux call base nowAt rl a).result = .error m) ∧
      (ghBackoffAux call base nowAt rl a).sleeps =
        (List.range rl).map (fun j =>
          ghRetrySleep (call (a + j)) (base * 2 ^ (a + j)) (nowAt (a + j))) := by
  intro rl
  induction rl with
  | zero =>
    intro a
    have hra := hall a
    rw [ghBackoffAux]
    rw [if_neg (by exact hra.1)]
    rw [if_pos (by exact hra.2)]
    refine ⟨by simp, ⟨_, rfl⟩, by simp⟩
  | succ n ih =>
    intro a
    have hra := hall a
    obtain ⟨h1, h2, h3⟩ := ih (a + 1)
    rw [ghBackoffAux]
    rw [if_neg (by exact hra.1)]
    rw [if_pos (by exact hra.2)]
    simp only []
    refine ⟨?_, h2, ?_⟩
    · show (ghBackoffAux call base nowAt n (a + 1)).attempts = a + (n + 1) + 1
      rw [h1]; omega
    · show ghRetrySleep (call a) (base * 2 ^ a) (nowAt a) ::
        (ghBackoffAux call base nowAt n (a + 1)).sleeps = _
      rw [h3, List.range_succ_eq_map, List.map_cons, List.map_map]
      refine congrArg₂ List.cons (by simp) (List.map_congr_left (fun j _ => ?_))
      have hj : a + 1 + j = a + Nat.succ j := by omega
      simp only [Function.comp_apply, hj]

lemma ghBackoff_fatal (call : Nat → GhResp) (base : ℚ) (nowAt : Nat → ℤ)
    (maxR : Nat) (hnot2xx : ¬ ghIsOk (call 0))
    (hnotrl : ¬ ((call 0).status = 403 ∨ (call 0).status = 429)) :
    ghBackoff call base nowAt maxR =
      ⟨.error ("GitHub API error " ++ toString (call 0).status ++ ": " ++ (call 0).errText),
        1, []⟩ := by
  rw [ghBackoff, ghBackoffAux.eq_def]
  rw [if_neg (by simpa [ghIsOk] using hnot2xx)]
  rw [if_neg hnotrl]

lemma awsLookupAux_params (c : AwsCfg) (attrs : List LookupAttribute)
    (eS eE : ℚ) (script : List (Nat → AwsOutcome)) :
    ∀ tok acc calls api att plog,
      (∀ p ∈ (awsLookupAux c attrs eS eE script tok acc calls api att plog).paramsLog,
        p ∈ plog ∨ (p.startTime = eS ∧ p.endTime = eE)) ∧
      (awsLookupAux c attrs eS eE script tok acc calls api att plog).stats.time_range_start =
        eS ∧
      (awsLookupAux c attrs eS eE script tok acc calls api att plog).stats.time_range_end =
        eE := by
  induction script with
  | nil =>
    intro tok acc calls api att plog
    simp only [awsLookupAux]
    split
    · exact ⟨fun p hp => Or.inl hp, rfl, rfl⟩
    · exact ⟨fun p hp => Or.inl hp, rfl, rfl⟩
  | cons f rest ih =>
    intro tok acc calls api att plog
    simp only [awsLookupAux]
    split
    · exact ⟨fun p hp => Or.inl hp, rfl, rfl⟩
    · rcases hres : (awsBackoff f c.baseDelay c.maxRetries).result with msg | resp <;>
        simp only [hres]
      · refine ⟨fun p hp => ?_, rfl, rfl⟩
        simp only [awsMkOut] at hp
        rcases List.mem_append.1 hp with h' | h'
        · exact Or.inl h'
        · refine Or.inr ?_
          simp only [List.mem_singleton] at h'
          subst h'
          exact ⟨rfl, rfl⟩
      · split
        · obtain ⟨hmem, h1, h2⟩ := ih resp.nextToken
            (awsIngest c.maxEvents c.eventName c.sourceIp attrs acc resp.events)
            (calls + 1) (api + 1)
            (att + (awsBackoff f c.baseDelay c.maxRetries).attempts)
            (plog ++ [⟨eS, eE, min c.pageSize 50, attrs,
              if pyTruthyOpt tok then tok else none⟩])
          refine ⟨fun p hp => ?_, h1, h2⟩
          rcases hmem p hp with h' | h'
          · rcases List.mem_append.1 h' with h'' | h''
            · exact Or.inl h''
            · refine Or.inr ?_
              simp only [List.mem_singleton] at h''
              subst h''
              exact ⟨rfl, rfl⟩
          · exact Or.inr h'
        · refine ⟨fun p hp => ?_, rfl, rfl⟩
          simp only [awsMkOut] at hp
          rcases List.mem_append.1 hp with h' | h'
          · exact Or.inl h'
          · refine Or.inr ?_
            simp only [List.mem_singleton] at h'
            subst h'
            exact ⟨rfl, rfl⟩

/-! ## Lemmas about the source-control pagination driver -/

lemma ghSearchAux_events_append (c : GhCfg) (phrase includeValue : String) (ppc : Int)
    (script : List (Nat → GhResp)) :
    ∀ acc page calls att,
      ∃ tail, (ghSearchAux c phrase includeValue ppc script acc page calls att).events =
        acc ++ tail := by
  induction script with
  | nil =>
    intro acc page calls att
    simp only [ghSearchAux]
    split
    · exact ⟨[], by simp [ghMkOut]⟩
    · exact ⟨[], by simp [ghMkOut]⟩
  | cons f rest ih =>
    intro acc page calls att
    simp only [ghSearchAux]
    split
    · rcases hres : (ghBackoff f c.baseDelay c.nowAt c.maxRetries).result with msg | resp <;>
        simp only [hres]
      · exact ⟨[], by simp [ghMkOut]⟩
      · rcases hbody : resp.body with _ | evs <;> simp only [hbody]
        · exact ⟨[], by simp [ghMkOut]⟩
        · split
          · exact ⟨[], by simp [ghMkOut]⟩
          · rcases ghIngest_append c.maxEvents evs acc with ⟨t1, ht1⟩
            split
            · exact ⟨t1, by simpa [ghMkOut] using ht1⟩
            · rcases ih (ghIngest c.maxEvents acc evs) (page + 1) (calls + 1)
                (att + (ghBackoff f c.baseDelay c.nowAt c.maxRetries).attempts)
                with ⟨t2, ht2⟩
              exact ⟨t1 ++ t2, by rw [ht2, ht1, List.append_assoc]⟩
    · exact ⟨[], by simp [ghMkOut]⟩

lemma ghSearchAux_events_length (c : GhCfg) (phrase includeValue : String) (ppc : Int)
    (script : List (Nat → GhResp)) :
    ∀ acc page calls att, acc.length ≤ c.maxEvents.toNat →
      (ghSearchAux c phrase includeValue ppc script acc page calls att).events.length ≤
        c.maxEvents.toNat := by
  induction script with
  | nil =>
    intro acc page calls att hacc
    simp only [ghSearchAux]
    split
    · exact hacc
    · exact hacc
  | cons f rest ih =>
    intro acc page calls att hacc
    simp only [ghSearchAux]
    split
    · rcases hres : (ghBackoff f c.baseDelay c.nowAt c.maxRetries).result with msg | resp <;>
        simp only [hres]
      · exact hacc
      · rcases hbody : resp.body with _ | evs <;> simp only [hbody]
        · exact hacc
        · have hing : (ghIngest c.maxEvents acc evs).length ≤ c.maxEvents.toNat := by
            have := ghIngest_length c.maxEvents evs acc
            omega
          split
          · exact hacc
          · split
            · exact hing
            · exact ih _ _ _ _ hing
    · exact hacc

lemma ghSearchAux_status (c : GhCfg) (phrase includeValue : String) (ppc : Int)
    (script : List (Nat → GhResp)) :
    ∀ acc page calls att,
      ((ghSearchAux c phrase includeValue ppc script acc page calls att).aborted = false →
        (ghSearchAux c phrase includeValue ppc script acc page calls att).success = true ∧
        (ghSearchAux c phrase includeValue ppc script acc page calls att).errors = []) ∧
      ((ghSearchAux c phrase includeValue ppc script acc page calls att).aborted = true →
        (ghSearchAux c phrase includeValue ppc script acc page calls att).success = false ∧
        (ghSearchAux c phrase includeValue ppc script acc page calls att).errors ≠ []) := by
  induction script with
  | nil =>
    intro acc page calls att
    simp only [ghSearchAux]
    split
    · exact ⟨fun _ => ⟨rfl, rfl⟩, fun hb => by simp [ghMkOut] at hb⟩
    · exact ⟨fun _ => ⟨rfl, rfl⟩, fun hb => by simp [ghMkOut] at hb⟩
  | cons f rest ih =>
    intro acc page calls att
    simp only [ghSearchAux]
    split
    · rcases hres : (ghBackoff f c.baseDelay c.nowAt c.maxRetries).result with msg | resp <;>
        simp only [hres]
      · exact ⟨fun hb => by simp [ghMkOut] at hb, fun _ => ⟨rfl, by simp [ghMkOut]⟩⟩
      · rcases hbody : resp.body with _ | evs <;> simp only [hbody]
        · exact ⟨fun _ => ⟨rfl, rfl⟩, fun hb => by simp [ghMkOut] at hb⟩
        · split
          · exact ⟨fun _ => ⟨rfl, rfl⟩, fun hb => by simp [ghMkOut] at hb⟩
          · split
            · exact ⟨fun _ => ⟨rfl, rfl⟩, fun hb => by simp [ghMkOut] at hb⟩
            · exact ih _ _ _ _
    · exact ⟨fun _ => ⟨rfl, rfl⟩, fun hb => by simp [ghMkOut] at hb⟩

lemma ghSearchAux_allok (c : GhCfg) (phrase includeValue : String) (ppc : Int)
    (script : List (Nat → GhResp)) :
    ∀ acc page calls att,
      (∀ f ∈ script, ∃ x, (ghBackoff f c.baseDelay c.nowAt c.maxRetries).result = .ok x) →
      (ghSearchAux c phrase includeValue ppc script acc page calls att).aborted = false := by
  induction script with
  | nil =>
    intro acc page calls att _
    simp only [ghSearchAux]
    split
    · rfl
    · rfl
  | cons f rest ih =>
    intro acc page calls att hok
    simp only [ghSearchAux]
    split
    · rcases hres : (ghBackoff f c.baseDelay c.nowAt c.maxRetries).result with msg | resp <;>
        simp only [hres]
      · rcases hok f (List.mem_cons_self _ _) with ⟨x, hx⟩
        rw [hres] at hx
        cases hx
      · rcases hbody : resp.body with _ | evs <;> simp only [hbody]
        · rfl
        · split
          · rfl
          · split
            · rfl
            · exact ih _ _ _ _ (fun g hg => hok g (List.mem_cons_of_mem _ hg))
    · rfl

lemma ghSearchAux_shortpage (c : GhCfg) (phrase includeValue : String) (ppc : Int)
    (script : List (Nat → GhResp)) :
    ∀ acc page calls att i f resp evs,
      script.get? i = some f →
      (ghBackoff f c.baseDelay c.nowAt c.maxRetries).result = .ok resp →
      resp.body = some evs →
      (evs.length : Int) < ppc →
      calls + i <
        (ghSearchAux c phrase includeValue ppc script acc page calls att).callsMade →
      (ghSearchAux c phrase includeValue ppc script acc page calls att).callsMade =
        calls + i + 1 := by
  induction script with
  | nil =>
    intro acc page calls att i f resp evs hget _ _ _ _
    exact absurd hget (by simp)
  | cons g rest ih =>
    intro acc page calls att i f resp evs hget hok hbody0 hshort hlt
    by_cases hcap : (acc.length : Int) < c.maxEvents
    · rcases hres : (ghBackoff g c.baseDelay c.nowAt c.maxRetries).result with msg | resp0
      · have hrun : ghSearchAux c phrase includeValue ppc (g :: rest) acc page calls att =
            ghMkOut phrase includeValue acc false
              ["GitHub audit log API failed: " ++ msg] page (calls + 1)
              (att + (ghBackoff g c.baseDelay c.nowAt c.maxRetries).attempts) true := by
          simp only [ghSearchAux]
          rw [if_pos hcap]
          simp only [hres]
        rw [hrun] at hlt ⊢
        simp only [ghMkOut] at hlt ⊢
        omega
      · rcases hbody : resp0.body with _ | evs0
        · have hrun : ghSearchAux c phrase includeValue ppc (g :: rest) acc page calls att =
              ghMkOut phrase includeValue acc true [] page (calls + 1)
                (att + (ghBackoff g c.baseDelay c.nowAt c.maxRetries).attempts) false := by
            simp only [ghSearchAux]
            rw [if_pos hcap]
            simp only [hres, hbody]
          rw [hrun] at hlt ⊢
          simp only [ghMkOut] at hlt ⊢
          omega
        · by_cases hemp : evs0 = []
          · have hrun : ghSearchAux c phrase includeValue ppc (g :: rest) acc page calls att =
                ghMkOut phrase includeValue acc true [] page (calls + 1)
                  (att + (ghBackoff g c.baseDelay c.nowAt c.maxRetries).attempts) false := by
              simp only [ghSearchAux]
              rw [if_pos hcap]
              simp only [hres, hbody]
              rw [if_pos hemp]
            rw [hrun] at hlt ⊢
            simp only [ghMkOut] at hlt ⊢
            omega
          · by_cases hshort0 : (evs0.length : Int) < ppc
            · have hrun : ghSearchAux c phrase includeValue ppc (g :: rest) acc page calls att =
                  ghMkOut phrase includeValue (ghIngest c.maxEvents acc evs0) true [] page
                    (calls + 1)
                    (att + (ghBackoff g c.baseDelay c.nowAt c.maxRetries).attempts) false := by
                simp only [ghSearchAux]
                rw [if_pos hcap]
                simp only [hres, hbody]
                rw [if_neg hemp, if_pos hshort0]
              rw [hrun] at hlt ⊢
              simp only [ghMkOut] at hlt ⊢
              omega
            · have hrun : ghSearchAux c phrase includeValue ppc (g :: rest) acc page calls att =
                  ghSearchAux c phrase includeValue ppc rest
                    (ghIngest c.maxEvents acc evs0) (page + 1) (calls + 1)
                    (att + (ghBackoff g c.baseDelay c.nowAt c.maxRetries).attempts) := by
                simp only [ghSearchAux]
                rw [if_pos hcap]
                simp only [hres, hbody]
                rw [if_neg hemp, if_neg hshort0]
              rw [hrun] at hlt ⊢
              rcases i with _ | i
              · simp only [List.get?_cons_zero, Option.some.injEq] at hget
                subst hget
                rw [hres] at hok
                cases hok
                rw [hbody] at hbody0
                cases hbody0
                exact absurd hshort hshort0
              · simp only [List.get?_cons_succ] at hget
                have h2 := ih (ghIngest c.maxEvents acc evs0) (page + 1) (calls + 1)
                  (att + (ghBackoff g c.baseDelay c.nowAt c.maxRetries).attempts)
                  i f resp evs hget hok hbody0 hshort (by omega)
                omega
    · have hrun : ghSearchAux c phrase includeValue ppc (g :: rest) acc page calls att =
          ghMkOut phrase includeValue acc true [] page calls att false := by
        simp only [ghSearchAux]
        rw [if_neg hcap]
      rw [hrun] at hlt
      simp only [ghMkOut] at hlt
      omega


/-! ## Lemmas about the cloud-logging pagination driver -/

lemma gcpSearchAux_entries_append (c : GcpCfg) (filterStr logIdValue : String)
    (script : List (Nat → GcpOutcome)) :
    ∀ acc calls att,
      ∃ tail, (gcpSearchAux c filterStr logIdValue script acc calls att).entries =
        acc ++ tail := by
  induction script with
  | nil =>
    intro acc calls att
    simp only [gcpSearchAux]
    split
    · exact ⟨[], by simp [gcpMkOut]⟩
    · exact ⟨[], by simp [gcpMkOut]⟩
  | cons f rest ih =>
    intro acc calls att
    simp only [gcpSearchAux]
    split
    · rcases hres : (gcpBackoff f c.baseDelay c.maxRetries).result with msg | it <;>
        simp only [hres]
      · exact ⟨[], by simp [gcpMkOut]⟩
      · rcases hpage : it.firstPage with _ | page <;> simp only [hpage]
        · exact ⟨[], by simp [gcpMkOut]⟩
        · rcases gcpIngest_append c.maxEntries page acc with ⟨t1, ht1⟩
          split
          · exact ⟨t1, by simpa [gcpMkOut] using ht1⟩
          · rcases ih (gcpIngest c.maxEntries acc page) (calls + 1)
              (att + (gcpBackoff f c.baseDelay c.maxRetries).attempts) with ⟨t2, ht2⟩
            exact ⟨t1 ++ t2, by rw [ht2, ht1, List.append_assoc]⟩
    · exact ⟨[], by simp [gcpMkOut]⟩

lemma gcpSearchAux_entries_length (c : GcpCfg) (filterStr logIdValue : String)
    (script : List (Nat → GcpOutcome)) :
    ∀ acc calls att, acc.length ≤ c.maxEntries.toNat →
      (gcpSearchAux c filterStr logIdValue script acc calls att).entries.length ≤
        c.maxEntries.toNat := by
  induction script with
  | nil =>
    intro acc calls att hacc
    simp only [gcpSearchAux]
    split
    · exact hacc
    · exact hacc
  | cons f rest ih =>
    intro acc calls att hacc
    simp only [gcpSearchAux]
    split
    · rcases hres : (gcpBackoff f c.baseDelay c.maxRetries).result with msg | it <;>
        simp only [hres]
      · exact hacc
      · rcases hpage : it.firstPage with _ | page <;> simp only [hpage]
        · exact hacc
        · have hing : (gcpIngest c.maxEntries acc page).length ≤ c.maxEntries.toNat := by
            have := gcpIngest_length c.maxEntries page acc
            omega
          split
          · exact hing
          · exact ih _ _ _ hing
    · exact hacc

lemma gcpSearchAux_status (c : GcpCfg) (filterStr logIdValue : String)
    (script : List (Nat → GcpOutcome)) :
    ∀ acc calls att,
      ((gcpSearchAux c filterStr logIdValue script acc calls att).aborted = false →
        (gcpSearchAux c filterStr logIdValue script acc calls att).success = true ∧
        (gcpSearchAux c filterStr logIdValue script acc calls att).errors = []) ∧
      ((gcpSearchAux c filterStr logIdValue script acc calls att).aborted = true →
        (gcpSearchAux c filterStr logIdValue script acc calls att).success = false ∧
        (gcpSearchAux c filterStr logIdValue script acc calls att).errors ≠ []) := by
  induction script with
  | nil =>
    intro acc calls att
    simp only [gcpSearchAux]
    split
    · exact ⟨fun _ => ⟨rfl, rfl⟩, fun hb => by simp [gcpMkOut] at hb⟩
    · exact ⟨fun _ => ⟨rfl, rfl⟩, fun hb => by simp [gcpMkOut] at hb⟩
  | cons f rest ih =>
    intro acc calls att
    simp only [gcpSearchAux]
    split
    · rcases hres : (gcpBackoff f c.baseDelay c.maxRetries).result with msg | it <;>
        simp only [hres]
      · exact ⟨fun hb => by simp [gcpMkOut] at hb, fun _ => ⟨rfl, by simp [gcpMkOut]⟩⟩
      · rcases hpage : it.firstPage with _ | page <;> simp only [hpage]
        · exact ⟨fun _ => ⟨rfl, rfl⟩, fun hb => by simp [gcpMkOut] at hb⟩
        · split
          · exact ⟨fun _ => ⟨rfl, rfl⟩, fun hb => by simp [gcpMkOut] at hb⟩
          · exact ih _ _ _
    · exact ⟨fun _ => ⟨rfl, rfl⟩, fun hb => by simp [gcpMkOut] at hb⟩

lemma gcpSearchAux_allok (c : GcpCfg) (filterStr logIdValue : String)
    (script : List (Nat → GcpOutcome)) :
    ∀ acc calls att,
      (∀ f ∈ script, ∃ x, (gcpBackoff f c.baseDelay c.maxRetries).result = .ok x) →
      (gcpSearchAux c filterStr logIdValue script acc calls att).aborted = false := by
  induction script with
  | nil =>
    intro acc calls att _
    simp only [gcpSearchAux]
    split
    · rfl
    · rfl
  | cons f rest ih =>
    intro acc calls att hok
    simp only [gcpSearchAux]
    split
    · rcases hres : (gcpBackoff f c.baseDelay c.maxRetries).result with msg | it <;>
        simp only [hres]
      · rcases hok f (List.mem_cons_self _ _) with ⟨x, hx⟩
        rw [hres] at hx
        cases hx
      · rcases hpage : it.firstPage with _ | page <;> simp only [hpage]
        · rfl
        · split
          · rfl
          · exact ih _ _ _ (fun g hg => hok g (List.mem_cons_of_mem _ hg))
    · rfl

/-! ## Lemmas about the query builders -/

lemma optTerm_mem (pre : String) (o : Option String) (part : String)
    (h : part ∈ optTerm pre o) : ∃ v, part = pre ++ v := by
  rcases o with _ | v
  · simp [optTerm] at h
  · simp only [optTerm] at h
    split at h
    · simp at h
      exact ⟨v, h⟩
    · simp at h

lemma optClause_mem (pre post : String) (o : Option String) (part : String)
    (h : part ∈ optClause pre post o) : ∃ v, part = pre ++ v ++ post := by
  rcases o with _ | v
  · simp [optClause] at h
  · simp only [optClause] at h
    split at h
    · simp at h
      exact ⟨v, h⟩
    · simp at h

/-! ## Claim theorems -/

/-- C4: for every provider's event normalizer and every raw input record,
the normalized output record contains the original raw payload verbatim
under a dedicated field (raw_cloudtrail_event holds the raw CloudTrailEvent
JSON string, raw holds the whole GitHub record, payload holds the Cloud
Logging entry payload), alongside the derived fields. -/
theorem c4_normalizer_preserves_raw_payload :
    (∀ e : AwsRawEvent, (awsNormalizeEvent e).raw_cloudtrail_event = e.cloudTrailEvent) ∧
    (∀ ev : GhRawEvent, (ghNormalizeEvent ev).raw = ev) ∧
    (∀ en : GcpEntry, (gcpNormalizeEntry en).payload = en.payload) :=
  ⟨fun _ => rfl, fun _ => rfl, fun _ => rfl⟩

/-- C7: the GitHub search phrase truncates dates to calendar-day
granularity: with both times it contains created:START_DATE..END_DATE
(dates only), with only a start created:>=START_DATE, with only an end
created:<=END_DATE; the phrase is the space-join of the parts, and the
same-day range of the spec example yields created:2025-01-01..2025-01-01. -/
theorem c7_github_phrase_day_granularity
    (actor action repo sourceIp : Option String) (s e : GhDatetime) :
    (("created:" ++ s.dateStr ++ ".." ++ e.dateStr) ∈
        ghBuildPhraseParts actor action repo sourceIp (some s) (some e)) ∧
    (("created:>=" ++ s.dateStr) ∈
        ghBuildPhraseParts actor action repo sourceIp (some s) none) ∧
    (("created:<=" ++ e.dateStr) ∈
        ghBuildPhraseParts actor action repo sourceIp none (some e)) ∧
    (∀ st et, ghBuildPhrase actor action repo sourceIp st et =
      String.intercalate " " (ghBuildPhraseParts actor action repo sourceIp st et)) ∧
    ghBuildPhrase none none none none
      (some ⟨"2025-01-01", "00:00:00+00:00"⟩) (some ⟨"2025-01-01", "23:59:00+00:00"⟩) =
      "created:2025-01-01..2025-01-01" := by
  refine ⟨?_, ?_, ?_, fun st et => rfl, by decide⟩ <;>
    simp [ghBuildPhraseParts]

/-- C5 counterexample: with max_events = -1 the cloud-infra hunt returns 0
events, and 0 exceeds -1, so "the number of returned events never exceeds
the configured max_events" is false as stated. -/
theorem c5_counterexample :
    (awsLookupEvents { maxEvents := -1 } []).events.length = 0 ∧
    ¬ (((awsLookupEvents { maxEvents := -1 } []).events.length : Int) ≤ -1) := by
  decide

/-- C5 (amended): for every provider, every filter set and every script of
remote responses, the number of events in the result never exceeds
max(max_events, 0) — equivalently, it never exceeds max_events whenever
max_events is non-negative. -/
theorem c5_event_cap_amended :
    (∀ (c : AwsCfg) (script : List (Nat → AwsOutcome)),
      ((awsLookupEvents c script).events.length : Int) ≤ max c.maxEvents 0) ∧
    (∀ (c : GhCfg) (script : List (Nat → GhResp)),
      ((ghSearchAuditLog c script).events.length : Int) ≤ max c.maxEvents 0) ∧
    (∀ (c : GcpCfg) (script : List (Nat → GcpOutcome)),
      ((gcpSearchLogs c script).entries.length : Int) ≤ max c.maxEntries 0) := by
  refine ⟨fun c script => ?_, fun c script => ?_, fun c script => ?_⟩
  · have h : (awsLookupEvents c script).events.length ≤ c.maxEvents.toNat :=
      awsLookupAux_events_length c
        (awsBuildLookupAttributes c.userName c.accessKeyId c.eventName)
        (match c.startTime with | none => c.now - 86400 | some t => t)
        (match c.endTime with | none => c.now | some t => t)
        script none [] 0 0 0 [] (Nat.zero_le _)
    omega
  · have h : (ghSearchAuditLog c script).events.length ≤ c.maxEvents.toNat :=
      ghSearchAux_events_length c
        (ghBuildPhrase c.actor c.action c.repo c.sourceIp c.startTime c.endTime)
        (pyOrStr c.includeArg c.configInclude)
        (min (max c.perPage 1) 100) script [] 1 0 0 (Nat.zero_le _)
    omega
  · have h : (gcpSearchLogs c script).entries.length ≤ c.maxEntries.toNat :=
      gcpSearchAux_entries_length c
        (gcpBuildFilter c.principalEmail c.methodName c.resourceName c.sourceIp
          (pyOrStr c.logId c.configDefaultLogId) c.startTime c.endTime)
        (pyOrStr c.logId c.configDefaultLogId) script [] 0 0 (Nat.zero_le _)
    omega

/-- C10: if the caller supplies a non-positive max_events (max_entries),
every provider's hunt makes no remote call at all (zero driver calls, zero
raw attempts) and returns success with an empty event list. -/
theorem c10_nonpositive_cap_no_calls :
    (∀ (c : AwsCfg) (script : List (Nat → AwsOutcome)), c.maxEvents ≤ 0 →
      (awsLookupEvents c script).callsMade = 0 ∧
      (awsLookupEvents c script).totalAttempts = 0 ∧
      (awsLookupEvents c script).success = true ∧
      (awsLookupEvents c script).events = []) ∧
    (∀ (c : GhCfg) (script : List (Nat → GhResp)), c.maxEvents ≤ 0 →
      (ghSearchAuditLog c script).callsMade = 0 ∧
      (ghSearchAuditLog c script).totalAttempts = 0 ∧
      (ghSearchAuditLog c script).success = true ∧
      (ghSearchAuditLog c script).events = []) ∧
    (∀ (c : GcpCfg) (script : List (Nat → GcpOutcome)), c.maxEntries ≤ 0 →
      (gcpSearchLogs c script).callsMade = 0 ∧
      (gcpSearchLogs c script).totalAttempts = 0 ∧
      (gcpSearchLogs c script).success = true ∧
      (gcpSearchLogs c script).entries = []) := by
  refine ⟨fun c script h => ?_, fun c script h => ?_, fun c script h => ?_⟩
  · have hq : ((([] : List AwsNormEvent).length : Int) ≥ c.maxEvents) := by
      simpa using h
    rcases script with _ | ⟨f, rest⟩ <;>
      · simp only [awsLookupEvents, awsLookupAux]
        rw [if_pos hq]
        exact ⟨rfl, rfl, rfl, rfl⟩
  · have hq : ¬ ((([] : List GhNormEvent).length : Int) < c.maxEvents) := by
      simp only [List.length_nil, Nat.cast_zero, not_lt]
      exact h
    rcases script with _ | ⟨f, rest⟩ <;>
      · simp only [ghSearchAuditLog, ghSearchAux]
        rw [if_neg hq]
        exact ⟨rfl, rfl, rfl, rfl⟩
  · have hq : ¬ ((([] : List GcpNormEntry).length : Int) < c.maxEntries) := by
      simp only [List.length_nil, Nat.cast_zero, not_lt]
      exact h
    rcases script with _ | ⟨f, rest⟩ <;>
      · simp only [gcpSearchLogs, gcpSearchAux]
        rw [if_neg hq]
        exact ⟨rfl, rfl, rfl, rfl⟩

/-- C10 witness: a run with max_events = 0 and a non-empty script makes no
call and returns success with no events, for each provider. -/
theorem c10_witness :
    (({ maxEvents := 0 } : AwsCfg).maxEvents ≤ 0 ∧
      (awsLookupEvents { maxEvents := 0 } awsThrottleOnceScript).callsMade = 0 ∧
      (awsLookupEvents { maxEvents := 0 } awsThrottleOnceScript).events = []) ∧
    (({ maxEvents := 0 } : GhCfg).maxEvents ≤ 0 ∧
      (ghSearchAuditLog { maxEvents := 0 } [ghCallFatal]).callsMade = 0 ∧
      (ghSearchAuditLog { maxEvents := 0 } [ghCallFatal]).events = []) ∧
    (({ maxEntries := 0 } : GcpCfg).maxEntries ≤ 0 ∧
      (gcpSearchLogs { maxEntries := 0 } [gcpCallFatal]).callsMade = 0 ∧
      (gcpSearchLogs { maxEntries := 0 } [gcpCallFatal]).entries = []) := by
  have h := c10_nonpositive_cap_no_calls
  refine ⟨⟨by decide, ?_, ?_⟩, ⟨by decide, ?_, ?_⟩, ⟨by decide, ?_, ?_⟩⟩
  · exact (h.1 { maxEvents := 0 } awsThrottleOnceScript (by decide)).1
  · exact (h.1 { maxEvents := 0 } awsThrottleOnceScript (by decide)).2.2.2
  · exact (h.2.1 { maxEvents := 0 } [ghCallFatal] (by decide)).1
  · exact (h.2.1 { maxEvents := 0 } [ghCallFatal] (by decide)).2.2.2
  · exact (h.2.2 { maxEntries := 0 } [gcpCallFatal] (by decide)).1
  · exact (h.2.2 { maxEntries := 0 } [gcpCallFatal] (by decide)).2.2.2

/-- C3 counterexample: with no start_time and no end_time supplied, the
source-control provider builds an empty phrase (no created: term at all)
and the cloud-logging provider builds a filter with no timestamp clause —
neither defaults to a last-24-hours window, so the claim is false for
"every provider". -/
theorem c3_counterexample :
    ghBuildPhraseParts none none none none none none = [] ∧
    ghBuildPhrase none none none none none none = "" ∧
    gcpBuildFilterParts none none none none "cloudaudit.googleapis.com/activity"
      none none = ["log_id(\"cloudaudit.googleapis.com/activity\")"] ∧
    gcpBuildFilter none none none none "cloudaudit.googleapis.com/activity"
      none none = "log_id(\"cloudaudit.googleapis.com/activity\")" :=
  ⟨rfl, rfl, rfl, rfl⟩

/-- C3 (amended): only the cloud-infra provider defaults the time window to
the last 24 hours when none is supplied — every page request carries
StartTime = now - 24h and EndTime = now and the statistics echo that range;
the source-control and cloud-logging providers simply omit the time term
from their queries (every emitted term is a non-time filter term). -/
theorem c3_default_time_window_amended :
    (∀ (c : AwsCfg) (script : List (Nat → AwsOutcome)),
      c.startTime = none → c.endTime = none →
      (∀ p ∈ (awsLookupEvents c script).paramsLog,
        p.startTime = c.now - 86400 ∧ p.endTime = c.now) ∧
      (awsLookupEvents c script).stats.time_range_start = c.now - 86400 ∧
      (awsLookupEvents c script).stats.time_range_end = c.now) ∧
    (∀ (actor action repo ip : Option String),
      ∀ part ∈ ghBuildPhraseParts actor action repo ip none none,
      (∃ a, part = "actor:" ++ a) ∨ (∃ a, part = "action:" ++ a) ∨
      (∃ r, part = "repo:" ++ r) ∨ (∃ i, part = "actor_ip:" ++ i)) ∧
    (∀ (principal method resource ip : Option String) (logId : String),
      ∀ clause ∈ gcpBuildFilterParts principal method resource ip logId none none,
      clause = "log_id(\"" ++ logId ++ "\")" ∨
      (∃ p, clause = "protoPayload.authenticationInfo.principalEmail=\"" ++ p ++ "\"") ∨
      (∃ m, clause = "protoPayload.methodName=\"" ++ m ++ "\"") ∨
      (∃ r, clause = "protoPayload.resourceName=\"" ++ r ++ "\"") ∨
      (∃ i, clause = "protoPayload.requestMetadata.callerIp=\"" ++ i ++ "\"")) := by
  refine ⟨fun c script hs he => ?_, fun actor action repo ip part hpart => ?_,
    fun principal method resource ip logId clause hclause => ?_⟩
  · have hrun : awsLookupEvents c script =
        awsLookupAux c (awsBuildLookupAttributes c.userName c.accessKeyId c.eventName)
          (c.now - 86400) c.now script none [] 0 0 0 [] := by
      simp only [awsLookupEvents, hs, he]
    rw [hrun]
    have h := awsLookupAux_params c
      (awsBuildLookupAttributes c.userName c.accessKeyId c.eventName)
      (c.now - 86400) c.now script none [] 0 0 0 []
    exact ⟨fun p hp => (h.1 p hp).resolve_left (by simp), h.2.1, h.2.2⟩
  · simp only [ghBuildPhraseParts, List.append_nil, List.mem_append] at hpart
    rcases hpart with (((h | h) | h) | h)
    · exact Or.inl (optTerm_mem _ _ _ h)
    · exact Or.inr (Or.inl (optTerm_mem _ _ _ h))
    · exact Or.inr (Or.inr (Or.inl (optTerm_mem _ _ _ h)))
    · exact Or.inr (Or.inr (Or.inr (optTerm_mem _ _ _ h)))
  · simp only [gcpBuildFilterParts, List.append_nil, List.mem_append,
      List.mem_singleton] at hclause
    rcases hclause with ((((h | h) | h) | h) | h)
    · exact Or.inl h
    · exact Or.inr (Or.inl (optClause_mem _ _ _ _ h))
    · exact Or.inr (Or.inr (Or.inl (optClause_mem _ _ _ _ h)))
    · exact Or.inr (Or.inr (Or.inr (Or.inl (optClause_mem _ _ _ _ h))))
    · exact Or.inr (Or.inr (Or.inr (Or.inr (optClause_mem _ _ _ _ h))))

/-- C3 witness: a cloud-infra run with no time window supplied, now = 100000
and one empty page: the single call's params carry start 13600 = now - 86400
and end = now, and the statistics echo them. -/
theorem c3_witness :
    ({ now := 100000 } : AwsCfg).startTime = none ∧
    ({ now := 100000 } : AwsCfg).endTime = none ∧
    (awsLookupEvents { now := 100000 } [fun _ => .ok ⟨[], none⟩]).stats.time_range_start =
      (100000 : ℚ) - 86400 ∧
    (awsLookupEvents { now := 100000 } [fun _ => .ok ⟨[], none⟩]).stats.time_range_end =
      (100000 : ℚ) := by
  have h := (c3_default_time_window_amended.1
    { now := 100000 } [fun _ => .ok ⟨[], none⟩] rfl rfl)
  exact ⟨rfl, rfl, h.2.1, h.2.2⟩

/-- Skip-condition analysis used by C1: when the client-side filter lets a
normalized event through, its fields match the supplied filters. -/
lemma awsClientSkip_false (eventName sourceIp : Option String)
    (attrs : List LookupAttribute) (n : AwsNormEvent)
    (h : awsClientSkip eventName sourceIp attrs n = false) :
    (∀ s a l, eventName = some s → s ≠ "" → attrs = a :: l →
      a.attributeKey ≠ "EventName" → n.event_name = some s) ∧
    (∀ ip, sourceIp = some ip → ip ≠ "" → n.source_ip_address = some ip) := by
  simp only [awsClientSkip, Bool.or_eq_false_iff] at h
  obtain ⟨h1, h2⟩ := h
  constructor
  · intro s a l hev hs hat hk
    subst hev
    subst hat
    simp only [Bool.and_eq_false_iff] at h1
    rcases h1 with h | h
    · rcases h with h | h
      · simp [hs] at h
      · simp [hk] at h
    · simpa using h
  · intro ip hip hipne
    subst hip
    simp only [Bool.and_eq_false_iff] at h2
    rcases h2 with h | h
    · simp [hipne] at h
    · simpa using h

/-- C1: for the cloud-infra hunt, when access_key_id is supplied the native
query uses exactly one LookupAttribute with key AccessKeyId regardless of
user_name/event_name (precedence access_key_id > user_name > event_name);
when event_name is supplied but not chosen as the primary attribute, every
returned event's normalized event_name equals it (enforced client-side);
and when source_ip is supplied, every returned event's source_ip_address
equals it. -/
theorem c1_cloudinfra_attribute_precedence_and_client_filters
    (c : AwsCfg) (script : List (Nat → AwsOutcome)) :
    (∀ k, c.accessKeyId = some k → k ≠ "" →
      awsBuildLookupAttributes c.userName c.accessKeyId c.eventName =
        [⟨"AccessKeyId", k⟩]) ∧
    (∀ s a l, c.eventName = some s → s ≠ "" →
      awsBuildLookupAttributes c.userName c.accessKeyId c.eventName = a :: l →
      a.attributeKey ≠ "EventName" →
      ∀ n ∈ (awsLookupEvents c script).events, n.event_name = some s) ∧
    (∀ ip, c.sourceIp = some ip → ip ≠ "" →
      ∀ n ∈ (awsLookupEvents c script).events, n.source_ip_address = some ip) := by
  refine ⟨fun k hk hkne => ?_, fun s a l hev hs hattrs hkey n hn => ?_,
    fun ip hip hipne n hn => ?_⟩
  · rw [hk]
    simp only [awsBuildLookupAttributes]
    rw [if_pos hkne]
  · rcases awsLookupAux_events_mem c
      (awsBuildLookupAttributes c.userName c.accessKeyId c.eventName)
      (match c.startTime with | none => c.now - 86400 | some t => t)
      (match c.endTime with | none => c.now | some t => t)
      script none [] 0 0 0 [] n hn with h | ⟨r, _, hskip⟩
    · simp at h
    · exact (awsClientSkip_false c.eventName c.sourceIp _ n hskip).1 s a l hev hs
        hattrs hkey
  · rcases awsLookupAux_events_mem c
      (awsBuildLookupAttributes c.userName c.accessKeyId c.eventName)
      (match c.startTime with | none => c.now - 86400 | some t => t)
      (match c.endTime with | none => c.now | some t => t)
      script none [] 0 0 0 [] n hn with h | ⟨r, _, hskip⟩
    · simp at h
    · exact (awsClientSkip_false c.eventName c.sourceIp _ n hskip).2 ip hip hipne

/-- C1 witness: all four filters supplied; the primary attribute is the
access key, and of a page holding a wrong-name, a matching and a wrong-IP
event only the matching one is returned, with the required name and IP. -/
theorem c1_witness :
    c1Cfg.accessKeyId = some "AKIA123" ∧
    awsBuildLookupAttributes c1Cfg.userName c1Cfg.accessKeyId c1Cfg.eventName =
      [⟨"AccessKeyId", "AKIA123"⟩] ∧
    (awsLookupEvents c1Cfg c1Script).events = [awsNormalizeEvent c1RawGood] ∧
    (awsNormalizeEvent c1RawGood).event_name = some "ConsoleLogin" ∧
    (awsNormalizeEvent c1RawGood).source_ip_address = some "9.9.9.9" := by
  have h := c1_cloudinfra_attribute_precedence_and_client_filters c1Cfg c1Script
  refine ⟨rfl, h.1 "AKIA123" rfl (by decide), by decide, ?_, ?_⟩
  · exact h.2.1 "ConsoleLogin" ⟨"AccessKeyId", "AKIA123"⟩ [] rfl (by decide)
      (h.1 "AKIA123" rfl (by decide)) (by decide) (awsNormalizeEvent c1RawGood)
      (by decide)
  · exact h.2.2 "9.9.9.9" rfl (by decide) (awsNormalizeEvent c1RawGood) (by decide)

/-- C8: GitHub pagination terminates the first time a fetched page holds
fewer records than the clamped per-page size min(max(per_page,1),100): if
the i-th driver call succeeds with such a short list body and the run makes
more than i calls, it makes exactly i+1 calls — no further page is
requested even though the event cap is not reached. -/
theorem c8_github_short_page_stops_pagination
    (c : GhCfg) (script : List (Nat → GhResp)) (i : Nat) (f : Nat → GhResp)
    (resp : GhResp) (evs : List GhRawEvent)
    (hget : script.get? i = some f)
    (hok : (ghBackoff f c.baseDelay c.nowAt c.maxRetries).result = .ok resp)
    (hbody : resp.body = some evs)
    (hshort : (evs.length : Int) < min (max c.perPage 1) 100)
    (hreached : i < (ghSearchAuditLog c script).callsMade) :
    (ghSearchAuditLog c script).callsMade = i + 1 := by
  have h := ghSearchAux_shortpage c
    (ghBuildPhrase c.actor c.action c.repo c.sourceIp c.startTime c.endTime)
    (pyOrStr c.includeArg c.configInclude) (min (max c.perPage 1) 100) script
    [] 1 0 0 i f resp evs hget hok hbody hshort (by simpa using hreached)
  simpa using h

/-- C8 witness: per_page 2, first page holds one record (short), a second
page exists in the script; the run makes exactly one call. -/
theorem c8_witness :
    c8Script.get? 0 = some c8Call1 ∧
    (ghBackoff c8Call1 c8Cfg.baseDelay c8Cfg.nowAt c8Cfg.maxRetries).result =
      .ok (c8Call1 0) ∧
    (c8Call1 0).body = some [ghRaw1] ∧
    (([ghRaw1].length : Int) < min (max c8Cfg.perPage 1) 100) ∧
    0 < (ghSearchAuditLog c8Cfg c8Script).callsMade ∧
    (ghSearchAuditLog c8Cfg c8Script).callsMade = 1 := by
  refine ⟨rfl, rfl, rfl, by decide, by decide, ?_⟩
  exact c8_github_short_page_stops_pagination c8Cfg c8Script 0 c8Call1 (c8Call1 0)
    [ghRaw1] rfl rfl rfl (by decide) (by decide)

/-- C9 counterexample: a cloud-infra run whose single page fetch is
throttled once and then succeeds makes 2 raw call attempts but surfaces
api_calls = 1 in details.statistics — retried attempts do not count — so
"every remote call attempt counts toward the API-calls statistic" is false
as stated. -/
theorem c9_counterexample :
    (awsLookupEvents {} awsThrottleOnceScript).totalAttempts = 2 ∧
    (awsLookupEvents {} awsThrottleOnceScript).stats.api_calls = 1 ∧
    (awsLookupEvents {} awsThrottleOnceScript).stats.api_calls ≠
      (awsLookupEvents {} awsThrottleOnceScript).totalAttempts := by
  refine ⟨?_, ?_, ?_⟩ <;> decide

/-- C9 (amended): only the cloud-infra provider surfaces an API-call
statistic, and it counts successful backoff-wrapped page fetches rather
than raw attempts: api_calls plus one (when the run aborted on a failed
call) equals the number of driver-level calls, and api_calls never exceeds
the total number of raw attempts (strictly fewer when throttled attempts
were retried, as the counterexample shows). -/
theorem c9_api_call_statistic_amended (c : AwsCfg) (script : List (Nat → AwsOutcome)) :
    (awsLookupEvents c script).stats.api_calls +
      (if (awsLookupEvents c script).aborted then 1 else 0) =
      (awsLookupEvents c script).callsMade ∧
    (awsLookupEvents c script).stats.api_calls ≤
      (awsLookupEvents c script).totalAttempts :=
  awsLookupAux_stats c
    (awsBuildLookupAttributes c.userName c.accessKeyId c.eventName)
    (match c.startTime with | none => c.now - 86400 | some t => t)
    (match c.endTime with | none => c.now | some t => t)
    script none [] 0 0 0 [] rfl (le_refl 0)

/-- C2 counterexample: a GitHub call that fails retryably exactly once
(status 429) and then succeeds does return the success after one retry, but
the sleep before the retry is max(reset - now, B*2^0) = 1000 rather than
B*2^0 = 1, because the response carried zero remaining quota and a reset
epoch — so the claimed sleep sequence B*2^0, ..., B*2^(N-1) is false for
the source-control backoff executor. -/
theorem c2_counterexample :
    ghRetryable (ghResetCall 0) ∧
    ghIsOk (ghResetCall 1) ∧
    (ghBackoff ghResetCall 1 (fun _ => 0) 5).result = .ok (ghResetCall 1) ∧
    (ghBackoff ghResetCall 1 (fun _ => 0) 5).attempts = 2 ∧
    (ghBackoff ghResetCall 1 (fun _ => 0) 5).sleeps = [1000] ∧
    (ghBackoff ghResetCall 1 (fun _ => 0) 5).sleeps ≠ [1 * 2 ^ 0] := by
  have h := ghBackoffAux_ok ghResetCall 1 (fun _ => 0) 1 0 5 (by omega)
    (fun j _ h2 => by
      have hj : j = 0 := by omega
      subst hj
      decide)
    (by decide)
  have hb : ghBackoff ghResetCall 1 (fun _ => 0) 5 =
      ⟨.ok (ghResetCall 1), 2, [ghRetrySleep (ghResetCall 0) 1 0]⟩ := by
    rw [ghBackoff, h]
    simp [List.range_succ]
  have hs : ghRetrySleep (ghResetCall 0) 1 0 = 1000 := by
    simp only [ghRetrySleep, ghResetCall]
    norm_num [max_eq_left]
  refine ⟨by decide, by decide, ?_, ?_, ?_, ?_⟩
  · rw [hb]
  · rw [hb]
  · rw [hb]
    simp [hs]
  · rw [hb]
    simp only [hs, ne_eq, List.cons.injEq, and_true]
    norm_num

/-- C2 (amended): for every backoff executor, a call that fails retryably
exactly N times (N ≤ R) and then succeeds returns the success value after
exactly N retries (N+1 attempts); a call that always fails retryably raises
after exactly R+1 attempts; a non-retryable failure is propagated
immediately after one attempt.  The sleeps are base*2^0..base*2^(N-1) for
the cloud-infra and cloud-logging executors, while the source-control
executor sleeps ghRetrySleep (max of the reset wait and the exponential
delay when quota is exhausted, the exponential delay otherwise). -/
theorem c2_backoff_retry_behavior_amended :
    (∀ (call : Nat → AwsOutcome) (base : ℚ) (R N : Nat) (r : AwsResp),
      N ≤ R → (∀ j, j < N → awsRetryable (call j)) → call N = .ok r →
      awsBackoff call base R =
        ⟨.ok r, N + 1, (List.range N).map (fun j => base * 2 ^ j)⟩) ∧
    (∀ (call : Nat → AwsOutcome) (base : ℚ) (R : Nat),
      (∀ j, awsRetryable (call j)) →
      (awsBackoff call base R).attempts = R + 1 ∧
      (∃ m, (awsBackoff call base R).result = .error m) ∧
      (awsBackoff call base R).sleeps = (List.range R).map (fun j => base * 2 ^ j)) ∧
    (∀ (call : Nat → AwsOutcome) (base : ℚ) (R : Nat) (co : String),
      call 0 = .clientError co → co ∉ awsThrottleCodes →
      awsBackoff call base R = ⟨.error ("ClientError " ++ co), 1, []⟩) ∧
    (∀ (call : Nat → GcpOutcome) (base : ℚ) (R N : Nat) (it : GcpIter),
      N ≤ R → (∀ j, j < N → gcpRetryable (call j)) → call N = .ok it →
      gcpBackoff call base R =
        ⟨.ok it, N + 1, (List.range N).map (fun j => base * 2 ^ j)⟩) ∧
    (∀ (call : Nat → GcpOutcome) (base : ℚ) (R : Nat),
      (∀ j, gcpRetryable (call j)) →
      (gcpBackoff call base R).attempts = R + 1 ∧
      (∃ m, (gcpBackoff call base R).result =
        .error ("GCP Logging rate limit exceeded and retries exhausted: " ++ m)) ∧
      (gcpBackoff call base R).sleeps = (List.range R).map (fun j => base * 2 ^ j)) ∧
    (∀ (call : Nat → GcpOutcome) (base : ℚ) (R : Nat) (m : String),
      call 0 = .fatal m → gcpBackoff call base R = ⟨.error m, 1, []⟩) ∧
    (∀ (call : Nat → GhResp) (base : ℚ) (nowAt : Nat → ℤ) (R N : Nat),
      N ≤ R → (∀ j, j < N → ghRetryable (call j)) → ghIsOk (call N) →
      ghBackoff call base nowAt R =
        ⟨.ok (call N), N + 1,
          (List.range N).map (fun j =>
            ghRetrySleep (call j) (base * 2 ^ j) (nowAt j))⟩) ∧
    (∀ (call : Nat → GhResp) (base : ℚ) (nowAt : Nat → ℤ) (R : Nat),
      (∀ j, ghRetryable (call j)) →
      (ghBackoff call base nowAt R).attempts = R + 1 ∧
      (∃ m, (ghBackoff call base nowAt R).result = .error m) ∧
      (ghBackoff call base nowAt R).sleeps =
        (List.range R).map (fun j => ghRetrySleep (call j) (base * 2 ^ j) (nowAt j))) ∧
    (∀ (call : Nat → GhResp) (base : ℚ) (nowAt : Nat → ℤ) (R : Nat),
      ¬ ghIsOk (call 0) → ¬ ((call 0).status = 403 ∨ (call 0).status = 429) →
      ghBackoff call base nowAt R =
        ⟨.error ("GitHub API error " ++ toString (call 0).status ++ ": " ++
          (call 0).errText), 1, []⟩) := by
  refine ⟨?_, ?_, awsBackoff_nonretryable, ?_, ?_, gcpBackoff_fatal, ?_, ?_,
    ghBackoff_fatal⟩
  · intro call base R N r hNR hret hok
    have h := awsBackoffAux_ok call base r N 0 R hNR
      (fun j _ h2 => hret j (by omega))
      (by simp only [Nat.zero_add]; exact hok)
    rw [awsBackoff, h]
    simp
  · intro call base R hall
    have h := awsBackoffAux_exhaust call base hall R 0
    rw [awsBackoff]
    refine ⟨by rw [h.1]; omega, h.2.1, by rw [h.2.2]; simp⟩
  · intro call base R N it hNR hret hok
    have h := gcpBackoffAux_ok call base it N 0 R hNR
      (fun j _ h2 => hret j (by omega))
      (by simp only [Nat.zero_add]; exact hok)
    rw [gcpBackoff, h]
    simp
  · intro call base R hall
    have h := gcpBackoffAux_exhaust call base hall R 0
    rw [gcpBackoff]
    refine ⟨by rw [h.1]; omega, h.2.1, by rw [h.2.2]; simp⟩
  · intro call base nowAt R N hNR hret hok
    have h := ghBackoffAux_ok call base nowAt N 0 R hNR
      (fun j _ h2 => hret j (by omega))
      (by simp only [Nat.zero_add]; exact hok)
    rw [ghBackoff, h]
    simp
  · intro call base nowAt R hall
    have h := ghBackoffAux_exhaust call base nowAt hall R 0
    rw [ghBackoff]
    refine ⟨by rw [h.1]; omega, h.2.1, by rw [h.2.2]; simp⟩

/-- C2 witness: for each executor — one retryable failure then success
returns after one retry; a permanently failing call exhausts after
max_retries + 1 attempts (here 3) with exponential sleeps; a non-retryable
failure propagates after a single attempt. -/
theorem c2_witness :
    awsBackoff awsCallNF 1 5 =
      ⟨.ok ⟨[], none⟩, 1 + 1, (List.range 1).map (fun j => (1 : ℚ) * 2 ^ j)⟩ ∧
    (awsBackoff awsCallAlways 1 2).attempts = 2 + 1 ∧
    (awsBackoff awsCallAlways 1 2).sleeps =
      (List.range 2).map (fun j => (1 : ℚ) * 2 ^ j) ∧
    awsBackoff awsCallFatal 1 5 = ⟨.error ("ClientError " ++ "AccessDenied"), 1, []⟩ ∧
    gcpBackoff gcpCallNF 1 5 =
      ⟨.ok ⟨some [], none⟩, 1 + 1, (List.range 1).map (fun j => (1 : ℚ) * 2 ^ j)⟩ ∧
    (gcpBackoff gcpCallAlways 1 2).attempts = 2 + 1 ∧
    (gcpBackoff gcpCallAlways 1 2).sleeps =
      (List.range 2).map (fun j => (1 : ℚ) * 2 ^ j) ∧
    gcpBackoff gcpCallFatal 1 5 = ⟨.error "boom", 1, []⟩ ∧
    ghBackoff ghResetCall 1 (fun _ => 0) 5 =
      ⟨.ok (ghResetCall 1), 1 + 1,
        (List.range 1).map (fun j => ghRetrySleep (ghResetCall j) ((1 : ℚ) * 2 ^ j)
          ((fun _ => (0 : ℤ)) j))⟩ ∧
    (ghBackoff ghCallAlways 1 (fun _ => 0) 2).attempts = 2 + 1 ∧
    (ghBackoff ghCallAlways 1 (fun _ => 0) 2).sleeps =
      (List.range 2).map (fun j => ghRetrySleep (ghCallAlways j) ((1 : ℚ) * 2 ^ j)
        ((fun _ => (0 : ℤ)) j)) ∧
    ghBackoff ghCallFatal 1 (fun _ => 0) 5 =
      ⟨.error ("GitHub API error " ++ toString (ghCallFatal 0).status ++ ": " ++
        (ghCallFatal 0).errText), 1, []⟩ := by
  have h := c2_backoff_retry_behavior_amended
  refine ⟨?_, ?_, ?_, ?_, ?_, ?_, ?_, ?_, ?_, ?_, ?_, ?_⟩
  · exact h.1 awsCallNF 1 5 1 ⟨[], none⟩ (by omega) (by decide) rfl
  · exact (h.2.1 awsCallAlways 1 2 (fun _ =>
      (by decide : awsRetryable (.clientError "Throttling")))).1
  · exact (h.2.1 awsCallAlways 1 2 (fun _ =>
      (by decide : awsRetryable (.clientError "Throttling")))).2.2
  · exact h.2.2.1 awsCallFatal 1 5 "AccessDenied" rfl (by decide)
  · exact h.2.2.2.1 gcpCallNF 1 5 1 ⟨some [], none⟩ (by omega) (by decide) rfl
  · exact (h.2.2.2.2.1 gcpCallAlways 1 2 (fun _ =>
      (by decide : gcpRetryable (.tooManyRequests "quota")))).1
  · exact (h.2.2.2.2.1 gcpCallAlways 1 2 (fun _ =>
      (by decide : gcpRetryable (.tooManyRequests "quota")))).2.2
  · exact h.2.2.2.2.2.1 gcpCallFatal 1 5 "boom" rfl
  · exact h.2.2.2.2.2.2.1 ghResetCall 1 (fun _ => 0) 5 1 (by omega) (by decide)
      (by decide)
  · exact (h.2.2.2.2.2.2.2.1 ghCallAlways 1 (fun _ => 0) 2 (fun _ =>
      (by decide : ghRetryable { status := 429, errText := "rl" }))).1
  · exact (h.2.2.2.2.2.2.2.1 ghCallAlways 1 (fun _ => 0) 2 (fun _ =>
      (by decide : ghRetryable { status := 429, errText := "rl" }))).2.2
  · exact h.2.2.2.2.2.2.2.2 ghCallFatal 1 (fun _ => 0) 5 (by decide) (by decide)

/-- C6: for every provider's hunt run — when no backoff-wrapped call fails
the result has success = true and no errors (an empty first page included:
it yields success with zero events); when a call fails fatally or exhausts
retries (the run aborts) the result has success = false and a non-empty
error list; and events already accumulated are always a prefix of the final
details, never discarded. -/
theorem c6_success_errors_partial_results :
    (∀ (c : AwsCfg) (script : List (Nat → AwsOutcome)),
      (∀ f ∈ script, ∃ x, (awsBackoff f c.baseDelay c.maxRetries).result = .ok x) →
      (awsLookupEvents c script).success = true ∧
      (awsLookupEvents c script).errors = []) ∧
    (∀ (c : GhCfg) (script : List (Nat → GhResp)),
      (∀ f ∈ script, ∃ x, (ghBackoff f c.baseDelay c.nowAt c.maxRetries).result = .ok x) →
      (ghSearchAuditLog c script).success = true ∧
      (ghSearchAuditLog c script).errors = []) ∧
    (∀ (c : GcpCfg) (script : List (Nat → GcpOutcome)),
      (∀ f ∈ script, ∃ x, (gcpBackoff f c.baseDelay c.maxRetries).result = .ok x) →
      (gcpSearchLogs c script).success = true ∧
      (gcpSearchLogs c script).errors = []) ∧
    (∀ c : AwsCfg,
      (awsLookupEvents c [fun _ => .ok ⟨[], none⟩]).success = true ∧
      (awsLookupEvents c [fun _ => .ok ⟨[], none⟩]).events = []) ∧
    (∀ c : GhCfg,
      (ghSearchAuditLog c [fun _ => { status := 200, body := some [] }]).success = true ∧
      (ghSearchAuditLog c [fun _ => { status := 200, body := some [] }]).events = []) ∧
    (∀ c : GcpCfg,
      (gcpSearchLogs c [fun _ => .ok ⟨some [], none⟩]).success = true ∧
      (gcpSearchLogs c [fun _ => .ok ⟨some [], none⟩]).entries = []) ∧
    (∀ (c : AwsCfg) (script : List (Nat → AwsOutcome)),
      (awsLookupEvents c script).aborted = true →
      (awsLookupEvents c script).success = false ∧
      (awsLookupEvents c script).errors ≠ []) ∧
    (∀ (c : GhCfg) (script : List (Nat → GhResp)),
      (ghSearchAuditLog c script).aborted = true →
      (ghSearchAuditLog c script).success = false ∧
      (ghSearchAuditLog c script).errors ≠ []) ∧
    (∀ (c : GcpCfg) (script : List (Nat → GcpOutcome)),
      (gcpSearchLogs c script).aborted = true →
      (gcpSearchLogs c script).success = false ∧
      (gcpSearchLogs c script).errors ≠ []) ∧
    (∀ (c : AwsCfg) (attrs : List LookupAttribute) (eS eE : ℚ)
      (script : List (Nat → AwsOutcome)) tok acc calls api att plog,
      ∃ tail, (awsLookupAux c attrs eS eE script tok acc calls api att plog).events =
        acc ++ tail) ∧
    (∀ (c : GhCfg) (phrase includeValue : String) (ppc : Int)
      (script : List (Nat → GhResp)) acc page calls att,
      ∃ tail, (ghSearchAux c phrase includeValue ppc script acc page calls att).events =
        acc ++ tail) ∧
    (∀ (c : GcpCfg) (filterStr logIdValue : String)
      (script : List (Nat → GcpOutcome)) acc calls att,
      ∃ tail, (gcpSearchAux c filterStr logIdValue script acc calls att).entries =
        acc ++ tail) := by
  refine ⟨fun c script hok => ?_, fun c script hok => ?_, fun c script hok => ?_,
    fun c => ?_, fun c => ?_, fun c => ?_,
    fun c script hab => ?_, fun c script hab => ?_, fun c script hab => ?_,
    awsLookupAux_events_append, ghSearchAux_events_append, gcpSearchAux_entries_append⟩
  · have hab := awsLookupAux_allok c
      (awsBuildLookupAttributes c.userName c.accessKeyId c.eventName)
      (match c.startTime with | none => c.now - 86400 | some t => t)
      (match c.endTime with | none => c.now | some t => t)
      script none [] 0 0 0 [] hok
    exact (awsLookupAux_status c _ _ _ script none [] 0 0 0 []).1 hab
  · have hab := ghSearchAux_allok c
      (ghBuildPhrase c.actor c.action c.repo c.sourceIp c.startTime c.endTime)
      (pyOrStr c.includeArg c.configInclude) (min (max c.perPage 1) 100)
      script [] 1 0 0 hok
    exact (ghSearchAux_status c _ _ _ script [] 1 0 0).1 hab
  · have hab := gcpSearchAux_allok c
      (gcpBuildFilter c.principalEmail c.methodName c.resourceName c.sourceIp
        (pyOrStr c.logId c.configDefaultLogId) c.startTime c.endTime)
      (pyOrStr c.logId c.configDefaultLogId) script [] 0 0 hok
    exact (gcpSearchAux_status c _ _ script [] 0 0).1 hab
  · constructor <;>
    · simp only [awsLookupEvents, awsLookupAux]
      split
      · rfl
      · rw [awsBackoff, awsBackoffAux]
        simp [awsIngest, pyTruthyOpt, awsMkOut]
  · constructor <;>
    · simp only [ghSearchAuditLog, ghSearchAux]
      split
      · rw [ghBackoff, ghBackoffAux.eq_def]
        simp [ghMkOut]
      · rfl
  · constructor <;>
    · simp only [gcpSearchLogs, gcpSearchAux]
      split
      · rw [gcpBackoff, gcpBackoffAux]
        simp [gcpIngest, pyTruthyOpt, gcpMkOut]
      · rfl
  · exact (awsLookupAux_status c
      (awsBuildLookupAttributes c.userName c.accessKeyId c.eventName)
      (match c.startTime with | none => c.now - 86400 | some t => t)
      (match c.endTime with | none => c.now | some t => t)
      script none [] 0 0 0 []).2 hab
  · exact (ghSearchAux_status c
      (ghBuildPhrase c.actor c.action c.repo c.sourceIp c.startTime c.endTime)
      (pyOrStr c.includeArg c.configInclude) (min (max c.perPage 1) 100)
      script [] 1 0 0).2 hab
  · exact (gcpSearchAux_status c
      (gcpBuildFilter c.principalEmail c.methodName c.resourceName c.sourceIp
        (pyOrStr c.logId c.configDefaultLogId) c.startTime c.endTime)
      (pyOrStr c.logId c.configDefaultLogId) script [] 0 0).2 hab

/-- C6 witness: an all-successful empty-page run yields success with no
errors for each provider, and a run whose only call fails fatally is marked
aborted with success = false and a non-empty error list. -/
theorem c6_witness :
    ((awsLookupEvents {} [fun _ => .ok ⟨[], none⟩]).success = true ∧
      (awsLookupEvents {} [fun _ => .ok ⟨[], none⟩]).errors = []) ∧
    ((ghSearchAuditLog {} [fun _ => { status := 200, body := some [] }]).success = true ∧
      (ghSearchAuditLog {} [fun _ => { status := 200, body := some [] }]).errors = []) ∧
    ((gcpSearchLogs {} [fun _ => .ok ⟨some [], none⟩]).success = true ∧
      (gcpSearchLogs {} [fun _ => .ok ⟨some [], none⟩]).errors = []) ∧
    ((awsLookupEvents {} [awsCallFatal]).aborted = true ∧
      (awsLookupEvents {} [awsCallFatal]).success = false ∧
      (awsLookupEvents {} [awsCallFatal]).errors ≠ []) ∧
    ((ghSearchAuditLog {} [ghCallFatal]).aborted = true ∧
      (ghSearchAuditLog {} [ghCallFatal]).success = false ∧
      (ghSearchAuditLog {} [ghCallFatal]).errors ≠ []) ∧
    ((gcpSearchLogs {} [gcpCallFatal]).aborted = true ∧
      (gcpSearchLogs {} [gcpCallFatal]).success = false ∧
      (gcpSearchLogs {} [gcpCallFatal]).errors ≠ []) := by
  have h := c6_success_errors_partial_results
  refine ⟨?_, ?_, ?_, ?_, ?_, ?_⟩
  · exact h.1 {} [fun _ => .ok ⟨[], none⟩]
      (fun f hf => by
        simp only [List.mem_singleton] at hf
        subst hf
        exact ⟨⟨[], none⟩, rfl⟩)
  · exact h.2.1 {} [fun _ => { status := 200, body := some [] }]
      (fun f hf => by
        simp only [List.mem_singleton] at hf
        subst hf
        exact ⟨_, rfl⟩)
  · exact h.2.2.1 {} [fun _ => .ok ⟨some [], none⟩]
      (fun f hf => by
        simp only [List.mem_singleton] at hf
        subst hf
        exact ⟨⟨some [], none⟩, rfl⟩)
  · have hb := h.2.2.2.2.2.2.1 {} [awsCallFatal] (by decide)
    exact ⟨by decide, hb.1, hb.2⟩
  · have hb := h.2.2.2.2.2.2.2.1 {} [ghCallFatal] (by decide)
    exact ⟨by decide, hb.1, hb.2⟩
  · have hb := h.2.2.2.2.2.2.2.2.1 {} [gcpCallFatal] (by decide)
    exact ⟨by decide, hb.1, hb.2⟩

end Dredge
